import Mathlib

/-!
Verification of the natural-language specification of the bridge-conversion
engine in `src/engine/src/bridge_converter.rs` against a shallow embedding of
that code.  The collaborator modules `types.rs`, `byvalue_checker.rs` and
`additional_cpp_generator.rs` are not part of the source tree; the definitions
embedding them are modelled from the spec and carry doc comments saying so.
-/

set_option maxHeartbeats 1000000

namespace Autocxx

/-- Qualified type identifier.
Modelled from the spec: `types.rs` (the Qualified Type Identifier) is missing
from src/.  The spec describes it as an immutable canonical name with equality
and hashing by canonical name, two renderings (bridge-side identifier,
foreign-side display name) and a "does this name start with type T's prefix"
query used for method-name demangling. -/
structure TypeName where
  name : String
deriving DecidableEq

/-- Mirrors `TypeName::from_ident`. -/
def TypeName.from_ident (s : String) : TypeName := ⟨s⟩

/-- Modelled from the spec: bridge-side identifier rendering.  The engine's
doc comment records that certain non-canonical identifiers, e.g.
`std_unique_ptr` and `std_string`, are replaced with canonical equivalents. -/
def TypeName.to_ident (t : TypeName) : String :=
  if t.name = "std_unique_ptr" then "UniquePtr"
  else if t.name = "std_string" then "CxxString"
  else t.name

/-- Modelled from the spec: rendering back to the original foreign-language
spelling (the stable cross-language type identity string). -/
def TypeName.to_cpp_name (t : TypeName) : String :=
  if t.name = "std_unique_ptr" then "std::unique_ptr"
  else if t.name = "std_string" then "std::string"
  else t.name

/-- Modelled from the spec: the demangling query.  Per the spec,
"`Type_Method` becomes method `Method` on `Type`", i.e. the query succeeds
when the candidate name continues the type name after an underscore, and it
returns the remaining suffix. -/
def TypeName.prefixes (t : TypeName) (s : String) : Option String :=
  let p := (t.name ++ "_").toList
  let sl := s.toList
  if p.isPrefixOf sl then some (String.mk (sl.drop p.length)) else none

mutual
/-- syn `Type`, restricted to the shapes `convert_type` distinguishes:
paths (possibly with generic arguments), references, raw pointers, and an
opaque "anything else" (matched by the `_ => ty` arm of `convert_type`). -/
inductive Ty : Type where
  | path (segs : List Seg) : Ty
  | ref (isMut : Bool) (elem : Ty) : Ty
  | ptr (isMut : Bool) (elem : Ty) : Ty
  | otherTy : Ty

/-- syn `PathSegment`: an identifier plus path arguments. -/
inductive Seg : Type where
  | mk (ident : String) (args : PathArgs) : Seg

/-- syn `PathArguments`. -/
inductive PathArgs : Type where
  | noArgs : PathArgs
  | angle (args : List GenArg) : PathArgs
  | parenArgs : PathArgs

/-- syn `GenericArgument`. -/
inductive GenArg : Type where
  | typeArg (t : Ty) : GenArg
  | otherArg : GenArg
end

mutual
/-- `BridgeConversion::convert_type`. -/
def convert_type : Ty → Ty
  | .path segs => .path (convert_segs segs)
  | .ref m e => .ref m (convert_type e)
  | .ptr m e => .ref m (convert_type e)
  | .otherTy => .otherTy

/-- Segment-list part of `BridgeConversion::convert_type_path`. -/
def convert_segs : List Seg → List Seg
  | [] => []
  | s :: rest => convert_seg s :: convert_segs rest

/-- Per-segment part of `BridgeConversion::convert_type_path`: canonicalise
the identifier and convert angle-bracketed arguments; other path-argument
shapes are left unchanged. -/
def convert_seg : Seg → Seg
  | .mk i args => .mk ((TypeName.from_ident i).to_ident) (convert_path_args args)

/-- The `PathArguments` match inside `convert_type_path`. -/
def convert_path_args : PathArgs → PathArgs
  | .angle l => .angle (convert_punctuated l)
  | .noArgs => .noArgs
  | .parenArgs => .parenArgs

/-- `BridgeConversion::convert_punctuated`. -/
def convert_punctuated : List GenArg → List GenArg
  | [] => []
  | .typeArg t :: rest => .typeArg (convert_type t) :: convert_punctuated rest
  | .otherArg :: rest => .otherArg :: convert_punctuated rest
end

mutual
/-- Erase every identifier in a type, keeping the structural skeleton
(reference/pointer constructors with their mutability, path nesting). -/
def stripNames : Ty → Ty
  | .path segs => .path (stripNamesSegs segs)
  | .ref m e => .ref m (stripNames e)
  | .ptr m e => .ptr m (stripNames e)
  | .otherTy => .otherTy

def stripNamesSegs : List Seg → List Seg
  | [] => []
  | s :: rest => stripNamesSeg s :: stripNamesSegs rest

def stripNamesSeg : Seg → Seg
  | .mk _ args => .mk "" (stripNamesArgs args)

def stripNamesArgs : PathArgs → PathArgs
  | .angle l => .angle (stripNamesGen l)
  | .noArgs => .noArgs
  | .parenArgs => .parenArgs

def stripNamesGen : List GenArg → List GenArg
  | [] => []
  | .typeArg t :: rest => .typeArg (stripNames t) :: stripNamesGen rest
  | .otherArg :: rest => .otherArg :: stripNamesGen rest
end

mutual
/-- Specification-side pointer rewrite, written from the claim's words:
replace every raw pointer by a reference of the same mutability, recursively
at every nesting level (inside generic arguments and behind references);
everything else is kept as it is. -/
def specPtrToRef : Ty → Ty
  | .path segs => .path (specPtrToRefSegs segs)
  | .ref m e => .ref m (specPtrToRef e)
  | .ptr m e => .ref m (specPtrToRef e)
  | .otherTy => .otherTy

def specPtrToRefSegs : List Seg → List Seg
  | [] => []
  | s :: rest => specPtrToRefSeg s :: specPtrToRefSegs rest

def specPtrToRefSeg : Seg → Seg
  | .mk i args => .mk i (specPtrToRefArgs args)

def specPtrToRefArgs : PathArgs → PathArgs
  | .angle l => .angle (specPtrToRefGen l)
  | .noArgs => .noArgs
  | .parenArgs => .parenArgs

def specPtrToRefGen : List GenArg → List GenArg
  | [] => []
  | .typeArg t :: rest => .typeArg (specPtrToRef t) :: specPtrToRefGen rest
  | .otherArg :: rest => .otherArg :: specPtrToRefGen rest
end

mutual
/-- Does a raw-pointer constructor occur anywhere in the type? -/
def hasPtr : Ty → Bool
  | .path segs => hasPtrSegs segs
  | .ref _ e => hasPtr e
  | .ptr _ _ => true
  | .otherTy => false

def hasPtrSegs : List Seg → Bool
  | [] => false
  | s :: rest => hasPtrSeg s || hasPtrSegs rest

def hasPtrSeg : Seg → Bool
  | .mk _ args => hasPtrArgs args

def hasPtrArgs : PathArgs → Bool
  | .angle l => hasPtrGen l
  | .noArgs => false
  | .parenArgs => false

def hasPtrGen : List GenArg → Bool
  | [] => false
  | .typeArg t :: rest => hasPtr t || hasPtrGen rest
  | .otherArg :: rest => hasPtrGen rest
end

mutual
theorem convert_strip_ty : ∀ t : Ty, stripNames (convert_type t) = specPtrToRef (stripNames t)
  | .path segs => by
      simp only [convert_type, stripNames, specPtrToRef, convert_strip_segs segs]
  | .ref m e => by
      simp only [convert_type, stripNames, specPtrToRef, convert_strip_ty e]
  | .ptr m e => by
      simp only [convert_type, stripNames, specPtrToRef, convert_strip_ty e]
  | .otherTy => rfl

theorem convert_strip_segs :
    ∀ l : List Seg, stripNamesSegs (convert_segs l) = specPtrToRefSegs (stripNamesSegs l)
  | [] => rfl
  | s :: rest => by
      simp only [convert_segs, stripNamesSegs, specPtrToRefSegs, convert_strip_seg s,
        convert_strip_segs rest]

theorem convert_strip_seg :
    ∀ s : Seg, stripNamesSeg (convert_seg s) = specPtrToRefSeg (stripNamesSeg s)
  | .mk i args => by
      simp only [convert_seg, stripNamesSeg, specPtrToRefSeg, convert_strip_args args]

theorem convert_strip_args :
    ∀ a : PathArgs, stripNamesArgs (convert_path_args a) = specPtrToRefArgs (stripNamesArgs a)
  | .angle l => by
      simp only [convert_path_args, stripNamesArgs, specPtrToRefArgs, convert_strip_gen l]
  | .noArgs => rfl
  | .parenArgs => rfl

theorem convert_strip_gen :
    ∀ l : List GenArg, stripNamesGen (convert_punctuated l) = specPtrToRefGen (stripNamesGen l)
  | [] => rfl
  | .typeArg t :: rest => by
      simp only [convert_punctuated, stripNamesGen, specPtrToRefGen, convert_strip_ty t,
        convert_strip_gen rest]
  | .otherArg :: rest => by
      simp only [convert_punctuated, stripNamesGen, specPtrToRefGen, convert_strip_gen rest]
end

mutual
theorem convert_no_ptr_ty : ∀ t : Ty, hasPtr (convert_type t) = false
  | .path segs => by simp only [convert_type, hasPtr, convert_no_ptr_segs segs]
  | .ref m e => by simp only [convert_type, hasPtr, convert_no_ptr_ty e]
  | .ptr m e => by simp only [convert_type, hasPtr, convert_no_ptr_ty e]
  | .otherTy => rfl

theorem convert_no_ptr_segs : ∀ l : List Seg, hasPtrSegs (convert_segs l) = false
  | [] => rfl
  | s :: rest => by
      simp only [convert_segs, hasPtrSegs, convert_no_ptr_seg s, convert_no_ptr_segs rest,
        Bool.or_self]

theorem convert_no_ptr_seg : ∀ s : Seg, hasPtrSeg (convert_seg s) = false
  | .mk i args => by simp only [convert_seg, hasPtrSeg, convert_no_ptr_args args]

theorem convert_no_ptr_args : ∀ a : PathArgs, hasPtrArgs (convert_path_args a) = false
  | .angle l => by simp only [convert_path_args, hasPtrArgs, convert_no_ptr_gen l]
  | .noArgs => rfl
  | .parenArgs => rfl

theorem convert_no_ptr_gen : ∀ l : List GenArg, hasPtrGen (convert_punctuated l) = false
  | [] => rfl
  | .typeArg t :: rest => by
      simp only [convert_punctuated, hasPtrGen, convert_no_ptr_ty t, convert_no_ptr_gen rest,
        Bool.or_self]
  | .otherArg :: rest => by
      simp only [convert_punctuated, hasPtrGen, convert_no_ptr_gen rest]
end

/-- Claim C6: `convert_type` maps every raw pointer to a reference preserving
its mutability (const pointer to immutable reference, mutable pointer to
mutable reference), recursively at every nesting level, including pointers
inside generic type arguments and behind references.  Stated as: after
erasing identifiers (which the conversion may canonicalise), converting a
type is exactly the claim-side pointer-to-reference rewrite, and no raw
pointer survives the conversion. -/
theorem c6_pointer_to_reference_mutability (t : Ty) :
    stripNames (convert_type t) = specPtrToRef (stripNames t) ∧
    hasPtr (convert_type t) = false :=
  ⟨convert_strip_ty t, convert_no_ptr_ty t⟩

/-! ## The abstract syntax consumed and produced by the converter -/

/-- A structured attribute, e.g. `#[link_name = "..."]` or
`#[rust_name = "..."]`; `name` is the attribute path, `value` its payload. -/
structure Attr where
  name : String
  value : String
deriving DecidableEq

/-- syn `Pat`, restricted to the shapes `convert_fn_arg` distinguishes. -/
inductive Pat : Type where
  | identPat (name : String) : Pat
  | otherPat : Pat
deriving DecidableEq

/-- syn `FnArg`: a typed pattern, or a literal Rust `self` receiver. -/
inductive FnArg : Type where
  | typed (pat : Pat) (ty : Ty) : FnArg
  | receiver : FnArg

/-- syn `Signature` of a foreign function: identifier, inputs and
return type (`none` models `ReturnType::Default`). -/
structure Signature where
  ident : String
  inputs : List FnArg
  output : Option Ty

/-- syn `ForeignItem`.  Besides function declarations (the only kind the
rewrite understands), the model carries the two generated kinds — `include!`
macro items and the verbatim `type X = super::bindgen::X;` alias token
stream — plus an opaque unrecognized kind standing for everything else
(statics, foreign types, macros, ...). -/
inductive ForeignItem : Type where
  | fn (attrs : List Attr) (sig : Signature) : ForeignItem
  | includeMacro (inc : String) : ForeignItem
  | verbatimAlias (tyident : String) : ForeignItem
  | unrecognized (tag : Nat) : ForeignItem

/-- syn `ItemForeignMod`: an `extern "abi"` block. -/
structure ItemForeignMod where
  abi : String
  attrs : List Attr
  items : List ForeignItem

/-- syn `Fields` of a struct declaration. -/
inductive Fields : Type where
  | named (fs : List (String × Ty)) : Fields
  | unnamed (fs : List Ty) : Fields
  | unit : Fields

/-- syn `ItemStruct`. -/
structure ItemStruct where
  ident : String
  fields : Fields

/-- syn `ItemEnum` (variant bodies are irrelevant to the conversion; the
classifier treats every enum as plain data by its name). -/
structure ItemEnum where
  ident : String
  variants : List String

/-- The body of an impl method, as far as the rewrite observes it: either
a call `super::cxxbridge::f(a, b, ...)` (the generated factory body) or an
opaque original body. -/
inductive MethodBody : Type where
  | cxxbridgeCall (fnName : String) (argNames : List String) : MethodBody
  | otherBody (tag : Nat) : MethodBody

/-- Signature of an impl method, including its `unsafe` marking. -/
structure MethodSig where
  ident : String
  inputs : List FnArg
  output : Option Ty
  isUnsafe : Bool

/-- syn `ImplItemMethod`. -/
structure ImplItemMethod where
  sig : MethodSig
  block : MethodBody

/-- syn `ImplItem`: a method, an associated type (used by the generated
`ExternType` impls), or anything else. -/
inductive ImplItem : Type where
  | method (m : ImplItemMethod) : ImplItem
  | assocType (name : String) (value : String) : ImplItem
  | otherImplItem (tag : Nat) : ImplItem

/-- syn `ItemImpl`: attributes, `unsafe` marking, optional trait path,
self type and items. -/
structure ItemImpl where
  attrs : List Attr
  isUnsafe : Bool
  traitPath : Option String
  self_ty : Ty
  items : List ImplItem

/-- syn `Item`, with module contents inlined into the constructor so the
type can nest. -/
inductive Item : Type where
  | foreignMod (fm : ItemForeignMod) : Item
  | structItem (s : ItemStruct) : Item
  | enumItem (e : ItemEnum) : Item
  | implItem (i : ItemImpl) : Item
  | modItem (attrs : List Attr) (isPub : Bool) (ident : String)
      (content : Option (List Item)) : Item
  | otherItem (tag : Nat) : Item

/-- syn `ItemMod`, as a record (used for the input bindings module and the
two assembled output modules). -/
structure ItemMod where
  attrs : List Attr
  isPub : Bool
  ident : String
  content : Option (List Item)

/-- View an `ItemMod` record as an `Item`. -/
def Item.ofMod (m : ItemMod) : Item :=
  .modItem m.attrs m.isPub m.ident m.content

/-! ## Spec-modelled collaborators -/

/-- Modelled from the spec: the per-slot Conversion Descriptor of
`additional_cpp_generator.rs` (missing from src/): either "pass through
unchanged" or "wrap via a unique-ownership handle", in one of the two
directions. -/
inductive ArgumentConversion : Type where
  | unconverted (ty : Ty) : ArgumentConversion
  | from_unique_ptr (ty : Ty) : ArgumentConversion
  | to_unique_ptr (ty : Ty) : ArgumentConversion

/-- Modelled from the spec: a descriptor requires wrapping work exactly when
it is not "pass through unchanged". -/
def ArgumentConversion.work_needed : ArgumentConversion → Bool
  | .unconverted _ => false
  | .from_unique_ptr _ => true
  | .to_unique_ptr _ => true

/-- Modelled from the spec: the Extra-Work Item variants of
`additional_cpp_generator.rs` (missing from src/):
factory-function-needed(type, constructor-argument-types) and
by-value-wrapper-needed(function-identity, return-conversion?,
parameter-conversions). -/
inductive AdditionalNeed : Type where
  | MakeUnique (ty : TypeName) (argTypes : List TypeName) : AdditionalNeed
  | ByValueWrapper (ident : String) (retConv : Option ArgumentConversion)
      (argConvs : List ArgumentConversion) : AdditionalNeed

/-- The last path segment's identifier, which names the type a path denotes. -/
def tyPathName (segs : List Seg) : String :=
  match segs.getLast? with
  | some (.mk i _) => i
  | none => ""

/-- Mirrors `TypeName::from_type_path` on the embedded grammar. -/
def TypeName.from_type_path (segs : List Seg) : TypeName :=
  ⟨tyPathName segs⟩

/-- Modelled from the spec: `TypeName::from_type` — path types name
themselves; the model maps every non-path type to the empty (never-trivial)
name. -/
def TypeName.from_type (t : Ty) : TypeName :=
  match t with
  | .path segs => TypeName.from_type_path segs
  | _ => ⟨""⟩

/-- Modelled from the spec: the primitive foreign scalar types that are
always safe to pass by value. -/
def podPrimitives : List String :=
  ["u8", "u16", "u32", "u64", "usize", "i8", "i16", "i32", "i64", "isize",
   "f32", "f64", "bool", "char", "c_char", "c_uchar", "c_schar", "c_short",
   "c_ushort", "c_int", "c_uint", "c_long", "c_ulong", "c_longlong",
   "c_ulonglong", "c_float", "c_double"]

/-- Modelled from the spec: the Triviality Classifier of
`byvalue_checker.rs` (missing from src/).  It ingests every declared
aggregate (structs with their field types, enums as always-trivial names)
and answers the transitive "is this type safe to pass by value" query:
a struct is trivial iff every field's type is itself trivial or a primitive
scalar. -/
structure ByValueChecker where
  structs : List (String × List Ty)
  pods : List String

/-- Mirrors `ByValueChecker::new`. -/
def ByValueChecker.new : ByValueChecker := ⟨[], []⟩

/-- Field types of a struct declaration, as ingested by the classifier. -/
def fieldTypes : Fields → List Ty
  | .named fs => fs.map (·.2)
  | .unnamed fs => fs
  | .unit => []

/-- Modelled from the spec: ingest a struct declaration (name and field
types) into the classifier. -/
def ByValueChecker.ingest_struct (c : ByValueChecker) (s : ItemStruct) : ByValueChecker :=
  { c with structs := c.structs ++ [(s.ident, fieldTypes s.fields)] }

/-- Modelled from the spec: record a type as known-trivial (used for enums,
which carry no data in the bindgen output). -/
def ByValueChecker.ingest_pod_type (c : ByValueChecker) (tn : TypeName) : ByValueChecker :=
  { c with pods := c.pods ++ [tn.name] }

/-- Field lists of the first ingested struct with the given name. -/
def ByValueChecker.lookupStruct (c : ByValueChecker) (n : String) : Option (List Ty) :=
  (c.structs.find? (fun p => p.1 = n)).map (·.2)

/-- Modelled from the spec: fuelled transitive triviality resolution — a
name is trivial when it is a recorded trivial type, a primitive scalar, or
a struct all of whose field types resolve trivially.  The fuel bounds the
nesting depth; cyclic aggregates resolve to non-trivial. -/
def ByValueChecker.isPodName (c : ByValueChecker) : Nat → String → Bool
  | 0, _ => false
  | fuel + 1, n =>
    c.pods.contains n || podPrimitives.contains n ||
      (match c.lookupStruct n with
       | some ftys =>
         ftys.all (fun t =>
           match t with
           | .path segs => c.isPodName fuel (tyPathName segs)
           | _ => false)
       | none => false)

/-- Modelled from the spec: `ByValueChecker::is_pod` — the transitive
trivial/opaque classification query. -/
def ByValueChecker.is_pod (c : ByValueChecker) (tn : TypeName) : Bool :=
  c.isPodName (c.structs.length + 1) tn.name

/-- Modelled from the spec: `ByValueChecker::satisfy_requests` — confirm
every caller-requested "must be trivial" type resolved to trivial, failing
with the (first) offending type's name otherwise. -/
def ByValueChecker.satisfy_requests (c : ByValueChecker) (reqs : List TypeName) :
    Except String Unit :=
  match reqs.find? (fun r => !(c.is_pod r)) with
  | some r => .error r.name
  | none => .ok ()

/-! ## The converter -/

/-- `ConvertError`: the three error kinds of the conversion. -/
inductive ConvertError : Type where
  | NoContent : ConvertError
  | UnsafePODType (name : String) : ConvertError
  | UnknownForeignItem : ConvertError
deriving DecidableEq

/-- How a conversion call can fail: by returning one of the three
`ConvertError` kinds, or by a Rust panic (modelled explicitly, since
`convert_fn_arg` panics on a literal receiver argument and the engine
unwraps options it believes are set). -/
inductive Failure : Type where
  | err (e : ConvertError) : Failure
  | panicked (msg : String) : Failure
deriving DecidableEq

/-- Result type of the fallible conversion functions. -/
abbrev Res (α : Type) := Except Failure α

/-- The message of the panic in `convert_fn_arg`. -/
def receiverPanicMsg : String := "FnArg::Receiver not yet handled"

/-- The message of an `Option::unwrap` panic. -/
def unwrapPanicMsg : String := "called Option::unwrap on a None value"

/-- The `ArgumentAnalysis` record returned alongside each converted
function argument. -/
structure ArgumentAnalysis where
  conversion : ArgumentConversion
  was_self : Bool

/-- The mutable state of `struct BridgeConversion`, minus the immutable
inputs (checker, rename map, include list), which are passed separately. -/
structure ConvState where
  bindgenMod : ItemMod
  all_items : List Item
  bridge_items : List Item
  extern_c_mod : Option ItemForeignMod
  extern_c_mod_items : List ForeignItem
  additional_cpp_needs : List AdditionalNeed
  types_found : List TypeName
  bindgen_items : List Item

/-- The `impl UniquePtr<#tyident> {}` placeholder pushed by
`generate_type_alias` into the bridge items. -/
def uniquePtrStub (tyident : String) : Item :=
  .implItem
    { attrs := [], isUnsafe := false, traitPath := none,
      self_ty := .path [.mk "UniquePtr" (.angle [.typeArg (.path [.mk tyident .noArgs])])],
      items := [] }

/-- The `unsafe impl cxx::ExternType for bindgen::#tyident { type Id = ...;
type Kind = ...; }` item pushed by `generate_type_alias` into `all_items`. -/
def externTypeImpl (tyident : String) (tynamestring : String) (kind : String) : Item :=
  .implItem
    { attrs := [], isUnsafe := true, traitPath := some "cxx::ExternType",
      self_ty := .path [.mk "bindgen" .noArgs, .mk tyident .noArgs],
      items := [.assocType "Id" tynamestring, .assocType "Kind" ("cxx::kind::" ++ kind)] }

/-- `BridgeConversion::generate_type_alias`: push the verbatim
`type X = super::bindgen::X;` alias into the pending extern-"C" items, the
`UniquePtr` placeholder into the bridge items, the `ExternType` binding
assertion (carrying the foreign spelling and the `Trivial`/`Opaque` tag)
into `all_items`, and record the type in the discovered-types ledger. -/
def generate_type_alias (st : ConvState) (tyname : TypeName) (should_be_pod : Bool) :
    ConvState :=
  let tyident := tyname.to_ident
  let kind_item := if should_be_pod then "Trivial" else "Opaque"
  let tynamestring := tyname.to_cpp_name
  { st with
    extern_c_mod_items := st.extern_c_mod_items ++ [.verbatimAlias tyident],
    bridge_items := st.bridge_items ++ [uniquePtrStub tyident],
    all_items := st.all_items ++ [externTypeImpl tyident tynamestring kind_item],
    types_found := st.types_found ++ [tyname] }

/-- `BridgeConversion::build_include_foreign_items`. -/
def build_include_foreign_items (include_list : List String) (extra : Option String) :
    List ForeignItem :=
  (include_list ++ extra.toList).map (fun inc => .includeMacro inc)

/-- `BridgeConversion::get_blank_extern_c_mod`. -/
def get_blank_extern_c_mod : ItemForeignMod :=
  { abi := "C", attrs := [], items := [] }

/-- `BridgeConversion::type_to_typename`. -/
def type_to_typename (ty : Ty) : Option TypeName :=
  match ty with
  | .path segs => some (TypeName.from_type_path segs)
  | _ => none

/-- `BridgeConversion::strip_attr`. -/
def strip_attr (attrs : List Attr) (to_strip : String) : List Attr :=
  attrs.filter (fun a => !(a.name = to_strip))

/-- The caller-supplied rename map lookup (`self.renames.get(&old_name)`). -/
def lookupRename (renames : List (String × String)) (old_name : String) : Option String :=
  (renames.find? (fun p => p.1 = old_name)).map (·.2)

/-- `BridgeConversion::convert_return_type`. -/
def convert_return_type (rt : Option Ty) : Option Ty :=
  rt.map convert_type

/-- `BridgeConversion::conversion_required`. -/
def conversion_required (bv : ByValueChecker) (ty : Ty) : ArgumentConversion :=
  match ty with
  | .path segs =>
    if bv.is_pod (TypeName.from_type_path segs) then .unconverted (.path segs)
    else .from_unique_ptr (.path segs)
  | t => .unconverted t

/-- `BridgeConversion::unwrap_return_type`. -/
def unwrap_return_type (bv : ByValueChecker) (rt : Option Ty) : Option ArgumentConversion :=
  match rt with
  | some t =>
    some (if !(bv.is_pod (TypeName.from_type t)) then .to_unique_ptr t else .unconverted t)
  | none => none

/-- `BridgeConversion::convert_fn_arg`: rename a parameter conventionally
named `this` to `self` (flagging the function as a method), rewrite the
parameter type, compute its conversion descriptor; a literal Rust receiver
argument panics. -/
def convert_fn_arg (bv : ByValueChecker) (arg : FnArg) : Res (FnArg × ArgumentAnalysis) :=
  match arg with
  | .typed pat ty =>
    let found_this_pat : Bool × Pat :=
      match pat with
      | .identPat n => if n = "this" then (true, .identPat "self") else (false, .identPat n)
      | .otherPat => (false, .otherPat)
    let new_ty := convert_type ty
    .ok (.typed found_this_pat.2 new_ty,
         { conversion := conversion_required bv new_ty, was_self := found_this_pat.1 })
  | .receiver => .error (.panicked receiverPanicMsg)

/-- Run `convert_fn_arg` over an argument list, stopping at the first
failure (the unzip of the map in `convert_foreign_fn`). -/
def convert_fn_args (bv : ByValueChecker) : List FnArg → Res (List (FnArg × ArgumentAnalysis))
  | [] => .ok []
  | a :: rest =>
    match convert_fn_arg bv a with
    | .error e => .error e
    | .ok p =>
      match convert_fn_args bv rest with
      | .error e => .error e
      | .ok ps => .ok (p :: ps)

/-- The synthetic default-constructor name check in `convert_foreign_fn`:
the declared name equals `{Type}_{Type}` for some previously discovered
type. -/
def isConstructorName (types_found : List TypeName) (name : String) : Bool :=
  types_found.any (fun ty => name = ty.name ++ "_" ++ ty.name)

/-- The method-name demangling step of `convert_foreign_fn`: when the
function is a method, the first discovered type whose name prefixes the
declared name (in discovery order) donates the remaining suffix as the
bridge-facing identifier. -/
def demangled_name (types_found : List TypeName) (old_name : String) (is_a_method : Bool) :
    String :=
  if is_a_method then
    match types_found.findSome? (fun cn => cn.prefixes old_name) with
    | some suffix => suffix
    | none => old_name
  else old_name

/-- `BridgeConversion::convert_foreign_fn`. -/
def convert_foreign_fn (bv : ByValueChecker) (renames : List (String × String))
    (st : ConvState) (attrs : List Attr) (sig : Signature) : Res ConvState :=
  let old_name := sig.ident
  if isConstructorName st.types_found old_name then .ok st
  else
    let output := convert_return_type sig.output
    match convert_fn_args bv sig.inputs with
    | .error e => .error e
    | .ok converted =>
      let new_params := converted.map (·.1)
      let param_details := converted.map (·.2)
      let is_a_method := param_details.any (·.was_self)
      let new_ident := demangled_name st.types_found old_name is_a_method
      let unique_ptr_wrapper_needed := param_details.any (fun b => b.conversion.work_needed)
      let ret_type_conversion := unwrap_return_type bv output
      let ret_type_conversion_needed :=
        match ret_type_conversion with
        | some x => x.work_needed
        | none => false
      let needs :=
        if unique_ptr_wrapper_needed || ret_type_conversion_needed then
          st.additional_cpp_needs ++
            [.ByValueWrapper new_ident ret_type_conversion (param_details.map (·.conversion))]
        else st.additional_cpp_needs
      let attrs1 := strip_attr attrs "link_name"
      let attrs2 :=
        match lookupRename renames old_name with
        | some new_name => attrs1 ++ [{ name := "rust_name", value := new_name }]
        | none => attrs1
      let new_item : ForeignItem :=
        .fn attrs2 { ident := new_ident, inputs := new_params, output := output }
      match st.extern_c_mod with
      | none => .error (.panicked unwrapPanicMsg)
      | some fm =>
        .ok { st with
              additional_cpp_needs := needs,
              extern_c_mod := some { fm with items := fm.items ++ [new_item] } }

/-- `BridgeConversion::convert_foreign_mod_items`: only function
declarations are understood; any other foreign item kind aborts with
`UnknownForeignItem`. -/
def convert_foreign_mod_items (bv : ByValueChecker) (renames : List (String × String))
    (st : ConvState) : List ForeignItem → Res ConvState
  | [] => .ok st
  | .fn attrs sig :: rest =>
    match convert_foreign_fn bv renames st attrs sig with
    | .error e => .error e
    | .ok st1 => convert_foreign_mod_items bv renames st1 rest
  | .includeMacro _ :: _ => .error (.err .UnknownForeignItem)
  | .verbatimAlias _ :: _ => .error (.err .UnknownForeignItem)
  | .unrecognized _ :: _ => .error (.err .UnknownForeignItem)

/-- The `cxx::UniquePtr < #oldreturntype >` return type built by
`convert_new_method`. -/
def make_unique_return (oldret : Ty) : Ty :=
  .path [.mk "cxx" .noArgs, .mk "UniquePtr" (.angle [.typeArg oldret])]

/-- The ordered (type, parameter-name) pairs of a constructor's typed
parameters, as collected by `convert_new_method`. -/
def constructor_args (inputs : List FnArg) : List (TypeName × String) :=
  inputs.filterMap (fun x =>
    match x with
    | .typed pat ty =>
      (type_to_typename ty).bind (fun tn =>
        match pat with
        | .identPat n => some (tn, n)
        | .otherPat => none)
    | .receiver => none)

/-- `BridgeConversion::convert_new_method`: rewrite a method named `new`
into a `make_unique` static factory delegating to
`super::cxxbridge::{Type}_make_unique`, record the matching
factory-function-needed item, and drop the `unsafe` markings.  A `new`
without a declared return type is left unprocessed. -/
def convert_new_method (st : ConvState) (m : ImplItemMethod) (ty : TypeName)
    (i : ItemImpl) : ConvState :=
  match m.sig.output with
  | none => st
  | some oldret =>
    let cargs := constructor_args m.sig.inputs
    let arg_types := cargs.map (·.1)
    let arg_names := cargs.map (·.2)
    let m1 : ImplItemMethod :=
      { m with
        block := .cxxbridgeCall (ty.name ++ "_make_unique") arg_names,
        sig := { m.sig with
                 ident := "make_unique", isUnsafe := false,
                 output := some (make_unique_return oldret) } }
    let new_item_impl : ItemImpl :=
      { i with attrs := [], isUnsafe := false, items := [.method m1] }
    { st with
      additional_cpp_needs := st.additional_cpp_needs ++ [.MakeUnique ty arg_types],
      bindgen_items := st.bindgen_items ++ [.implItem new_item_impl] }

/-- One iteration of the scan over an impl block's items in the
`Item::Impl` arm of `convert_items`: a method literally named `new` is
rewritten through `convert_new_method`; everything else is ignored. -/
def implStep (ty : TypeName) (i : ItemImpl) (acc : ConvState) (it : ImplItem) : ConvState :=
  match it with
  | .method m => if m.sig.ident = "new" then convert_new_method acc m ty i else acc
  | _ => acc

/-- One iteration of the `for item in items` dispatch in
`BridgeConversion::convert_items`. -/
def convert_item (bv : ByValueChecker) (renames : List (String × String))
    (st : ConvState) : Item → Res ConvState
  | .foreignMod fm =>
    let inner := fm.items
    let shell : ItemForeignMod := { fm with items := [] }
    let st1 :=
      if st.extern_c_mod.isNone then { st with extern_c_mod := some shell } else st
    convert_foreign_mod_items bv renames st1 inner
  | .structItem s =>
    let tyname := TypeName.from_ident s.ident
    let should_be_pod := bv.is_pod tyname
    let st1 := generate_type_alias st tyname should_be_pod
    let s1 := if !should_be_pod then { s with fields := Fields.unit } else s
    .ok { st1 with bindgen_items := st1.bindgen_items ++ [.structItem s1] }
  | .enumItem e =>
    let tyname := TypeName.from_ident e.ident
    let st1 := generate_type_alias st tyname true
    .ok { st1 with bindgen_items := st1.bindgen_items ++ [.enumItem e] }
  | .implItem i =>
    (match type_to_typename i.self_ty with
     | some ty => .ok (i.items.foldl (implStep ty i) st)
     | none => .ok st)
  | .modItem a p n c => .ok { st with all_items := st.all_items ++ [.modItem a p n c] }
  | .otherItem t => .ok { st with all_items := st.all_items ++ [.otherItem t] }

/-- The per-item loop of `BridgeConversion::convert_items`. -/
def convert_item_list (bv : ByValueChecker) (renames : List (String × String))
    (st : ConvState) : List Item → Res ConvState
  | [] => .ok st
  | it :: rest =>
    match convert_item bv renames st it with
    | .error e => .error e
    | .ok st1 => convert_item_list bv renames st1 rest

/-- Results of a conversion (`BridgeConversionResults`). -/
structure BridgeConversionResults where
  items : List Item
  additional_cpp_needs : List AdditionalNeed

/-- The attribute of the generated `#[cxx::bridge] pub mod cxxbridge`. -/
def cxxbridgeAttr : Attr := { name := "cxx::bridge", value := "" }

/-- The module-assembly tail of `BridgeConversion::convert_items`: choose or
synthesize the extern-"C" block, append the pending foreign items to it,
push it into the bridge items, pour the bindgen items into the reclassified
module, and emit the two sibling modules. -/
def assemble (st : ConvState) : Res BridgeConversionResults :=
  let ecm0 := st.extern_c_mod.getD get_blank_extern_c_mod
  let ecm : ItemForeignMod := { ecm0 with items := ecm0.items ++ st.extern_c_mod_items }
  let bridge_items := st.bridge_items ++ [.foreignMod ecm]
  match st.bindgenMod.content with
  | none => .error (.panicked unwrapPanicMsg)
  | some c =>
    let bm : ItemMod := { st.bindgenMod with content := some (c ++ st.bindgen_items) }
    let bridge_mod : ItemMod :=
      { attrs := [cxxbridgeAttr], isPub := true, ident := "cxxbridge",
        content := some bridge_items }
    .ok { items := st.all_items ++ [Item.ofMod bm, Item.ofMod bridge_mod],
          additional_cpp_needs := st.additional_cpp_needs }

/-- Pass 1 of the conversion: `BridgeConversion::find_nested_pod_types`
builds the classifier from every struct and enum declaration.  This is the
ingestion fold, split out so the classifier state can be named in
theorem statements. -/
def pass1Checker (items : List Item) : ByValueChecker :=
  items.foldl (fun c item =>
    match item with
    | .structItem s => c.ingest_struct s
    | .enumItem e => c.ingest_pod_type (TypeName.from_ident e.ident)
    | _ => c) ByValueChecker.new

/-- `BridgeConversion::find_nested_pod_types`: ingest all aggregates, then
confirm the caller's must-be-trivial requests, mapping a classifier refusal
to `UnsafePODType`. -/
def find_nested_pod_types (items : List Item) (pod_requests : List TypeName) :
    Except ConvertError ByValueChecker :=
  let c := pass1Checker items
  match c.satisfy_requests pod_requests with
  | .error name => .error (.UnsafePODType name)
  | .ok _ => .ok c

/-- The state of `BridgeConversion` as initialized in `convert` (empty
accumulators, no chosen extern-"C" block) after the include items have been
seeded. -/
def initConvState (bindgen_mod : ItemMod) (include_list : List String)
    (extra_inclusion : Option String) : ConvState :=
  { bindgenMod := bindgen_mod, all_items := [], bridge_items := [],
    extern_c_mod := none,
    extern_c_mod_items := build_include_foreign_items include_list extra_inclusion,
    additional_cpp_needs := [], types_found := [], bindgen_items := [] }

/-- `BridgeConversion::convert_items`: classification pass, include-item
seeding, the per-item loop, and final assembly. -/
def convert_items (pod_requests : List TypeName) (include_list : List String)
    (renames : List (String × String)) (bindgen_mod : ItemMod)
    (items : List Item) (extra_inclusion : Option String) : Res BridgeConversionResults :=
  match find_nested_pod_types items pod_requests with
  | .error e => .error (.err e)
  | .ok bv =>
    match convert_item_list bv renames
        (initConvState bindgen_mod include_list extra_inclusion) items with
    | .error e => .error e
    | .ok st1 => assemble st1

/-- `struct BridgeConverter`: the caller-configured converter. -/
structure BridgeConverter where
  include_list : List String
  pod_requests : List TypeName

/-- `BridgeConverter::convert`: an input module without a body is
`NoContent`; otherwise the body is converted with an emptied copy of the
module serving as the reclassified-module shell. -/
def convert (cv : BridgeConverter) (bindings : ItemMod) (extra_inclusion : Option String)
    (renames : List (String × String)) : Res BridgeConversionResults :=
  match bindings.content with
  | none => .error (.err .NoContent)
  | some items =>
    let bindgen_mod : ItemMod := { bindings with content := some [] }
    convert_items cv.pod_requests cv.include_list renames bindgen_mod items extra_inclusion

/-! ## Characterization of the foreign-function rewrite -/

/-- Is the argument a typed parameter (as opposed to a literal receiver)? -/
def fnArgIsTyped : FnArg → Bool
  | .typed _ _ => true
  | .receiver => false

/-- Total companion of `convert_fn_arg`: on typed arguments it computes the
same pair; on a receiver (where `convert_fn_arg` panics) it returns an
arbitrary placeholder. -/
def convArgOk (bv : ByValueChecker) : FnArg → FnArg × ArgumentAnalysis
  | .typed pat ty =>
    let found_this_pat : Bool × Pat :=
      match pat with
      | .identPat n => if n = "this" then (true, .identPat "self") else (false, .identPat n)
      | .otherPat => (false, .otherPat)
    let new_ty := convert_type ty
    (.typed found_this_pat.2 new_ty,
     { conversion := conversion_required bv new_ty, was_self := found_this_pat.1 })
  | .receiver => (.receiver, { conversion := .unconverted .otherTy, was_self := false })

theorem convert_fn_arg_typed (bv : ByValueChecker) (a : FnArg)
    (h : fnArgIsTyped a = true) : convert_fn_arg bv a = .ok (convArgOk bv a) := by
  cases a with
  | typed pat ty => rfl
  | receiver => simp [fnArgIsTyped] at h

theorem convert_fn_args_ok_of_typed (bv : ByValueChecker) :
    ∀ l : List FnArg, (∀ a ∈ l, fnArgIsTyped a = true) →
      convert_fn_args bv l = .ok (l.map (convArgOk bv))
  | [], _ => rfl
  | a :: rest, h => by
    have ha := h a (List.mem_cons_self a rest)
    have hrest := convert_fn_args_ok_of_typed bv rest
      (fun x hx => h x (List.mem_cons_of_mem a hx))
    simp only [convert_fn_args, convert_fn_arg_typed bv a ha, hrest, List.map_cons]

theorem convert_fn_args_receiver (bv : ByValueChecker) :
    ∀ l : List FnArg, FnArg.receiver ∈ l →
      convert_fn_args bv l = .error (.panicked receiverPanicMsg)
  | a :: rest, h => by
    cases a with
    | typed pat ty =>
      have hmem : FnArg.receiver ∈ rest := by simpa using h
      simp only [convert_fn_args, convert_fn_arg,
        convert_fn_args_receiver bv rest hmem]
    | receiver => simp only [convert_fn_args, convert_fn_arg]

theorem convert_fn_args_ok_inv (bv : ByValueChecker) :
    ∀ l : List FnArg, ∀ out, convert_fn_args bv l = .ok out →
      (∀ a ∈ l, fnArgIsTyped a = true) ∧ out = l.map (convArgOk bv)
  | [], out, h => by
    refine ⟨by simp, ?_⟩
    simpa [convert_fn_args] using h.symm
  | a :: rest, out, h => by
    cases a with
    | typed pat ty =>
      rw [convert_fn_args, convert_fn_arg_typed bv (.typed pat ty) rfl] at h
      cases hrest : convert_fn_args bv rest with
      | error e => rw [hrest] at h; exact absurd h (by simp)
      | ok ps =>
        rw [hrest] at h
        have hout : out = convArgOk bv (.typed pat ty) :: ps := by
          simpa using h.symm
        obtain ⟨h1, h2⟩ := convert_fn_args_ok_inv bv rest ps hrest
        refine ⟨?_, ?_⟩
        · intro x hx
          rcases List.mem_cons.mp hx with hx | hx
          · subst hx; rfl
          · exact h1 x hx
        · simp [hout, h2]
    | receiver =>
      rw [convert_fn_args, convert_fn_arg] at h
      exact absurd h (by simp)

/-- Per-parameter analyses of a function signature, after type rewrite. -/
def paramAnalyses (bv : ByValueChecker) (sig : Signature) : List ArgumentAnalysis :=
  (sig.inputs.map (convArgOk bv)).map (·.2)

/-- Was some parameter detected as the conventional `this` receiver? -/
def fnIsMethod (bv : ByValueChecker) (sig : Signature) : Bool :=
  (paramAnalyses bv sig).any (·.was_self)

/-- The bridge-facing identifier of the rewritten function, after method
demangling against the discovered-types ledger. -/
def finalFnIdent (bv : ByValueChecker) (tf : List TypeName) (sig : Signature) : String :=
  demangled_name tf sig.ident (fnIsMethod bv sig)

/-- The return-conversion descriptor of the rewritten function. -/
def fnRetConv (bv : ByValueChecker) (sig : Signature) : Option ArgumentConversion :=
  unwrap_return_type bv (convert_return_type sig.output)

/-- The parameter-conversion descriptors of the rewritten function, in
declaration order. -/
def fnParamConvs (bv : ByValueChecker) (sig : Signature) : List ArgumentConversion :=
  (paramAnalyses bv sig).map (·.conversion)

/-- Does the rewritten function need a by-value wrapper: some parameter's
descriptor requires work, or the (post-rewrite) return descriptor does. -/
def fnWrapperNeeded (bv : ByValueChecker) (sig : Signature) : Bool :=
  (paramAnalyses bv sig).any (fun b => b.conversion.work_needed) ||
    (match fnRetConv bv sig with
     | some x => x.work_needed
     | none => false)

/-- The Extra-Work items `convert_foreign_fn` appends for one function. -/
def fnWrapperNeeds (bv : ByValueChecker) (tf : List TypeName) (sig : Signature) :
    List AdditionalNeed :=
  if fnWrapperNeeded bv sig then
    [.ByValueWrapper (finalFnIdent bv tf sig) (fnRetConv bv sig) (fnParamConvs bv sig)]
  else []

/-- The attribute hygiene step: strip `link_name`, attach a `rust_name`
hint when the caller renamed the original name. -/
def fnFinalAttrs (renames : List (String × String)) (attrs : List Attr)
    (old_name : String) : List Attr :=
  let attrs1 := strip_attr attrs "link_name"
  match lookupRename renames old_name with
  | some new_name => attrs1 ++ [{ name := "rust_name", value := new_name }]
  | none => attrs1

/-- The rewritten declaration `convert_foreign_fn` pushes into the chosen
extern-"C" block. -/
def rewrittenFn (bv : ByValueChecker) (renames : List (String × String))
    (tf : List TypeName) (attrs : List Attr) (sig : Signature) : ForeignItem :=
  .fn (fnFinalAttrs renames attrs sig.ident)
    { ident := finalFnIdent bv tf sig,
      inputs := (sig.inputs.map (convArgOk bv)).map (·.1),
      output := convert_return_type sig.output }

theorem convert_foreign_fn_skip (bv : ByValueChecker) (renames : List (String × String))
    (st : ConvState) (attrs : List Attr) (sig : Signature)
    (h : isConstructorName st.types_found sig.ident = true) :
    convert_foreign_fn bv renames st attrs sig = .ok st := by
  simp [convert_foreign_fn, h]

theorem convert_foreign_fn_spec (bv : ByValueChecker) (renames : List (String × String))
    (st : ConvState) (attrs : List Attr) (sig : Signature) (fm : ItemForeignMod)
    (hctor : isConstructorName st.types_found sig.ident = false)
    (hargs : ∀ a ∈ sig.inputs, fnArgIsTyped a = true)
    (hfm : st.extern_c_mod = some fm) :
    convert_foreign_fn bv renames st attrs sig =
      .ok { st with
            additional_cpp_needs :=
              st.additional_cpp_needs ++ fnWrapperNeeds bv st.types_found sig,
            extern_c_mod := some
              { fm with items := fm.items ++ [rewrittenFn bv renames st.types_found attrs sig] } } := by
  rw [convert_foreign_fn, hctor]
  simp only [Bool.false_eq_true, if_false]
  rw [convert_fn_args_ok_of_typed bv sig.inputs hargs, hfm]
  simp only [fnWrapperNeeds, fnWrapperNeeded, fnRetConv, fnParamConvs, finalFnIdent,
    fnIsMethod, paramAnalyses, rewrittenFn, fnFinalAttrs]
  split
  · split <;> simp
  · split <;> simp

theorem convert_foreign_fn_receiver (bv : ByValueChecker) (renames : List (String × String))
    (st : ConvState) (attrs : List Attr) (sig : Signature)
    (hctor : isConstructorName st.types_found sig.ident = false)
    (h : FnArg.receiver ∈ sig.inputs) :
    convert_foreign_fn bv renames st attrs sig = .error (.panicked receiverPanicMsg) := by
  rw [convert_foreign_fn, hctor]
  simp only [Bool.false_eq_true, if_false]
  rw [convert_fn_args_receiver bv sig.inputs h]

theorem convert_foreign_fn_ok_inv (bv : ByValueChecker) (renames : List (String × String))
    (st st' : ConvState) (attrs : List Attr) (sig : Signature)
    (h : convert_foreign_fn bv renames st attrs sig = .ok st') :
    (isConstructorName st.types_found sig.ident = true ∧ st' = st) ∨
    (isConstructorName st.types_found sig.ident = false ∧
     (∀ a ∈ sig.inputs, fnArgIsTyped a = true) ∧
     ∃ fm, st.extern_c_mod = some fm ∧
       st' = { st with
               additional_cpp_needs :=
                 st.additional_cpp_needs ++ fnWrapperNeeds bv st.types_found sig,
               extern_c_mod := some
                 { fm with
                   items := fm.items ++ [rewrittenFn bv renames st.types_found attrs sig] } }) := by
  cases hc : isConstructorName st.types_found sig.ident with
  | true =>
    left
    refine ⟨rfl, ?_⟩
    rw [convert_foreign_fn_skip bv renames st attrs sig hc] at h
    simpa using h.symm
  | false =>
    right
    refine ⟨rfl, ?_⟩
    have h1 := h
    rw [convert_foreign_fn, hc] at h1
    simp only [Bool.false_eq_true, if_false] at h1
    cases hargs : convert_fn_args bv sig.inputs with
    | error e => rw [hargs] at h1; exact absurd h1 (by simp)
    | ok converted =>
      obtain ⟨htyped, hconv⟩ := convert_fn_args_ok_inv bv sig.inputs converted hargs
      refine ⟨htyped, ?_⟩
      cases hfm : st.extern_c_mod with
      | none => rw [hargs, hfm] at h1; exact absurd h1 (by simp)
      | some fm =>
        refine ⟨fm, rfl, ?_⟩
        rw [convert_foreign_fn_spec bv renames st attrs sig fm hc htyped hfm] at h
        simpa using h.symm

/-! ## Characterization of the foreign-mod rewrite -/

/-- Is the foreign item a function declaration? -/
def isFnFI : ForeignItem → Bool
  | .fn _ _ => true
  | _ => false

/-- The sequence of rewritten declarations a foreign-mod item list
contributes to the chosen extern-"C" block, given the discovered-types
ledger at that point: every non-constructor function, rewritten, in order. -/
def pass2FnItems (bv : ByValueChecker) (renames : List (String × String))
    (tf : List TypeName) : List ForeignItem → List ForeignItem
  | [] => []
  | .fn attrs sig :: r =>
    (if isConstructorName tf sig.ident then []
     else [rewrittenFn bv renames tf attrs sig]) ++ pass2FnItems bv renames tf r
  | _ :: r => pass2FnItems bv renames tf r

/-- The Extra-Work items a foreign-mod item list contributes, in order. -/
def pass2FnNeeds (bv : ByValueChecker) (tf : List TypeName) :
    List ForeignItem → List AdditionalNeed
  | [] => []
  | .fn _ sig :: r =>
    (if isConstructorName tf sig.ident then [] else fnWrapperNeeds bv tf sig) ++
      pass2FnNeeds bv tf r
  | _ :: r => pass2FnNeeds bv tf r

theorem convert_foreign_fn_ok_exists (bv : ByValueChecker)
    (renames : List (String × String)) (st : ConvState) (attrs : List Attr)
    (sig : Signature) (fm : ItemForeignMod)
    (hfm : st.extern_c_mod = some fm)
    (hargs : ∀ a ∈ sig.inputs, fnArgIsTyped a = true) :
    ∃ st1 fm1, convert_foreign_fn bv renames st attrs sig = .ok st1 ∧
      st1.extern_c_mod = some fm1 ∧ st1.types_found = st.types_found := by
  cases hc : isConstructorName st.types_found sig.ident with
  | true => exact ⟨st, fm, convert_foreign_fn_skip bv renames st attrs sig hc, hfm, rfl⟩
  | false =>
    refine ⟨_, _, convert_foreign_fn_spec bv renames st attrs sig fm hc hargs hfm, rfl, rfl⟩

theorem convert_foreign_mod_items_spec (bv : ByValueChecker)
    (renames : List (String × String)) :
    ∀ (fis : List ForeignItem) (st st' : ConvState) (fm : ItemForeignMod),
      st.extern_c_mod = some fm →
      convert_foreign_mod_items bv renames st fis = .ok st' →
      st' = { st with
              additional_cpp_needs :=
                st.additional_cpp_needs ++ pass2FnNeeds bv st.types_found fis,
              extern_c_mod := some
                { fm with
                  items := fm.items ++ pass2FnItems bv renames st.types_found fis } }
  | [], st, st', fm, hfm, h => by
    have hst : st = st' := by simpa [convert_foreign_mod_items] using h
    subst hst
    simp only [pass2FnNeeds, pass2FnItems, List.append_nil, ← hfm]
  | .fn attrs sig :: rest, st, st', fm, hfm, h => by
    cases hcf : convert_foreign_fn bv renames st attrs sig with
    | error e => simp [convert_foreign_mod_items, hcf] at h
    | ok st1 =>
      simp only [convert_foreign_mod_items, hcf] at h
      rcases convert_foreign_fn_ok_inv bv renames st st1 attrs sig hcf with
        ⟨hc, heq⟩ | ⟨hc, htyped, fm', hfm', hst1⟩
      · subst heq
        have ih := convert_foreign_mod_items_spec bv renames rest st1 st' fm hfm h
        rw [ih]
        simp [pass2FnNeeds, pass2FnItems, hc]
      · rw [hfm'] at hfm
        have hfm2 : fm' = fm := by simpa using hfm
        rw [hfm2] at hst1
        have hext1 : st1.extern_c_mod =
            some { fm with items := fm.items ++ [rewrittenFn bv renames st.types_found attrs sig] } := by
          rw [hst1]
        have ih := convert_foreign_mod_items_spec bv renames rest st1 st' _ hext1 h
        rw [ih, hst1]
        simp [pass2FnNeeds, pass2FnItems, hc, List.append_assoc]
  | .includeMacro i :: rest, st, st', fm, hfm, h => by
    simp [convert_foreign_mod_items] at h
  | .verbatimAlias a :: rest, st, st', fm, hfm, h => by
    simp [convert_foreign_mod_items] at h
  | .unrecognized t :: rest, st, st', fm, hfm, h => by
    simp [convert_foreign_mod_items] at h

theorem convert_foreign_mod_items_unknown (bv : ByValueChecker)
    (renames : List (String × String)) :
    ∀ (fis : List ForeignItem) (st : ConvState) (fm : ItemForeignMod),
      st.extern_c_mod = some fm →
      (∀ attrs sig, ForeignItem.fn attrs sig ∈ fis → ∀ a ∈ sig.inputs, fnArgIsTyped a = true) →
      (∃ fi ∈ fis, isFnFI fi = false) →
      convert_foreign_mod_items bv renames st fis = .error (.err .UnknownForeignItem)
  | [], st, fm, hfm, htyped, hbad => by
    obtain ⟨fi, hmem, _⟩ := hbad
    exact absurd hmem (List.not_mem_nil fi)
  | .fn attrs sig :: rest, st, fm, hfm, htyped, hbad => by
    obtain ⟨st1, fm1, hok, hext1, _⟩ :=
      convert_foreign_fn_ok_exists bv renames st attrs sig fm hfm
        (htyped attrs sig (List.mem_cons_self _ _))
    have hbad' : ∃ fi ∈ rest, isFnFI fi = false := by
      obtain ⟨fi, hmem, hfi⟩ := hbad
      rcases List.mem_cons.mp hmem with rfl | hmem'
      · simp [isFnFI] at hfi
      · exact ⟨fi, hmem', hfi⟩
    have htyped' : ∀ attrs sig, ForeignItem.fn attrs sig ∈ rest →
        ∀ a ∈ sig.inputs, fnArgIsTyped a = true :=
      fun a s hm => htyped a s (List.mem_cons_of_mem _ hm)
    simp only [convert_foreign_mod_items, hok]
    exact convert_foreign_mod_items_unknown bv renames rest st1 fm1 hext1 htyped' hbad'
  | .includeMacro i :: rest, st, fm, hfm, htyped, hbad => rfl
  | .verbatimAlias a :: rest, st, fm, hfm, htyped, hbad => rfl
  | .unrecognized t :: rest, st, fm, hfm, htyped, hbad => rfl

/-! ## Characterization of the constructor rewrite -/

/-- The rewritten factory method produced by `convert_new_method`: renamed
`make_unique`, body delegating to `super::cxxbridge::{Type}_make_unique`
with the same argument names in order, return type wrapped in
`cxx::UniquePtr`, `unsafe` marking removed. -/
def factoryMethod (ty : TypeName) (m : ImplItemMethod) (oldret : Ty) : ImplItemMethod :=
  { m with
    block := .cxxbridgeCall (ty.name ++ "_make_unique")
      ((constructor_args m.sig.inputs).map (·.2)),
    sig := { m.sig with
             ident := "make_unique", isUnsafe := false,
             output := some (make_unique_return oldret) } }

/-- The Extra-Work items `convert_new_method` records for one method. -/
def newMethodNeeds (ty : TypeName) (m : ImplItemMethod) : List AdditionalNeed :=
  match m.sig.output with
  | none => []
  | some _ => [.MakeUnique ty ((constructor_args m.sig.inputs).map (·.1))]

/-- The reclassified-module items `convert_new_method` emits for one
method. -/
def newMethodItems (ty : TypeName) (i : ItemImpl) (m : ImplItemMethod) : List Item :=
  match m.sig.output with
  | none => []
  | some oldret =>
    [.implItem
      { i with
        attrs := [], isUnsafe := false,
        items := [.method (factoryMethod ty m oldret)] }]

theorem convert_new_method_eq (st : ConvState) (m : ImplItemMethod) (ty : TypeName)
    (i : ItemImpl) :
    convert_new_method st m ty i =
      { st with
        additional_cpp_needs := st.additional_cpp_needs ++ newMethodNeeds ty m,
        bindgen_items := st.bindgen_items ++ newMethodItems ty i m } := by
  cases h : m.sig.output with
  | none => simp [convert_new_method, newMethodNeeds, newMethodItems, h]
  | some oldret => simp [convert_new_method, newMethodNeeds, newMethodItems, factoryMethod, h]

/-- The Extra-Work items an impl block's item list contributes: one
factory-function-needed item per method literally named `new` that has a
declared return type. -/
def implNeedsOf (ty : TypeName) : List ImplItem → List AdditionalNeed
  | [] => []
  | .method m :: r =>
    (if m.sig.ident = "new" then newMethodNeeds ty m else []) ++ implNeedsOf ty r
  | _ :: r => implNeedsOf ty r

/-- The reclassified-module items an impl block's item list contributes:
one factory impl per rewritten `new`. -/
def implItemsOf (ty : TypeName) (i : ItemImpl) : List ImplItem → List Item
  | [] => []
  | .method m :: r =>
    (if m.sig.ident = "new" then newMethodItems ty i m else []) ++ implItemsOf ty i r
  | _ :: r => implItemsOf ty i r

theorem impl_fold_eq (ty : TypeName) (i : ItemImpl) :
    ∀ (its : List ImplItem) (st : ConvState),
      its.foldl (implStep ty i) st =
      { st with
        additional_cpp_needs := st.additional_cpp_needs ++ implNeedsOf ty its,
        bindgen_items := st.bindgen_items ++ implItemsOf ty i its }
  | [], st => by simp [implNeedsOf, implItemsOf]
  | .method m :: r, st => by
    by_cases hm : m.sig.ident = "new"
    · rw [List.foldl_cons]
      have hstep : implStep ty i st (.method m) = convert_new_method st m ty i := by
        simp [implStep, hm]
      rw [hstep, convert_new_method_eq, impl_fold_eq ty i r]
      simp [implNeedsOf, implItemsOf, hm, List.append_assoc]
    · rw [List.foldl_cons]
      have hstep : implStep ty i st (.method m) = st := by
        simp [implStep, hm]
      rw [hstep, impl_fold_eq ty i r]
      simp [implNeedsOf, implItemsOf, hm]
  | .assocType n v :: r, st => by
    rw [List.foldl_cons]
    have hstep : implStep ty i st (.assocType n v) = st := rfl
    rw [hstep, impl_fold_eq ty i r]
    simp [implNeedsOf, implItemsOf]
  | .otherImplItem t :: r, st => by
    rw [List.foldl_cons]
    have hstep : implStep ty i st (.otherImplItem t) = st := rfl
    rw [hstep, impl_fold_eq ty i r]
    simp [implNeedsOf, implItemsOf]

/-! ## Per-item equations for the dispatch loop -/

theorem convert_item_struct_eq (bv : ByValueChecker) (renames : List (String × String))
    (st : ConvState) (s : ItemStruct) :
    convert_item bv renames st (.structItem s) =
      .ok { st with
            all_items := st.all_items ++
              [externTypeImpl (TypeName.from_ident s.ident).to_ident
                (TypeName.from_ident s.ident).to_cpp_name
                (if bv.is_pod (TypeName.from_ident s.ident) then "Trivial" else "Opaque")],
            bridge_items := st.bridge_items ++
              [uniquePtrStub (TypeName.from_ident s.ident).to_ident],
            extern_c_mod_items := st.extern_c_mod_items ++
              [.verbatimAlias (TypeName.from_ident s.ident).to_ident],
            types_found := st.types_found ++ [TypeName.from_ident s.ident],
            bindgen_items := st.bindgen_items ++
              [.structItem (if bv.is_pod (TypeName.from_ident s.ident) then s
                            else { s with fields := Fields.unit })] } := by
  cases hbp : bv.is_pod (TypeName.from_ident s.ident) <;>
    simp [convert_item, generate_type_alias, hbp]

theorem convert_item_enum_eq (bv : ByValueChecker) (renames : List (String × String))
    (st : ConvState) (e : ItemEnum) :
    convert_item bv renames st (.enumItem e) =
      .ok { st with
            all_items := st.all_items ++
              [externTypeImpl (TypeName.from_ident e.ident).to_ident
                (TypeName.from_ident e.ident).to_cpp_name "Trivial"],
            bridge_items := st.bridge_items ++
              [uniquePtrStub (TypeName.from_ident e.ident).to_ident],
            extern_c_mod_items := st.extern_c_mod_items ++
              [.verbatimAlias (TypeName.from_ident e.ident).to_ident],
            types_found := st.types_found ++ [TypeName.from_ident e.ident],
            bindgen_items := st.bindgen_items ++ [.enumItem e] } := by
  simp [convert_item, generate_type_alias]

theorem convert_item_impl_eq (bv : ByValueChecker) (renames : List (String × String))
    (st : ConvState) (i : ItemImpl) (ty : TypeName)
    (h : type_to_typename i.self_ty = some ty) :
    convert_item bv renames st (.implItem i) =
      .ok { st with
            additional_cpp_needs := st.additional_cpp_needs ++ implNeedsOf ty i.items,
            bindgen_items := st.bindgen_items ++ implItemsOf ty i i.items } := by
  simp only [convert_item, h]
  rw [impl_fold_eq ty i i.items st]

theorem convert_item_impl_none_eq (bv : ByValueChecker) (renames : List (String × String))
    (st : ConvState) (i : ItemImpl) (h : type_to_typename i.self_ty = none) :
    convert_item bv renames st (.implItem i) = .ok st := by
  simp only [convert_item, h]

/-! ## The produced output of the per-item loop, as pure functions -/

/-- The discovered-types ledger contributed by an item list: every struct
and enum name, in declaration order. -/
def declaredTypeNames : List Item → List TypeName
  | [] => []
  | .structItem s :: r => TypeName.from_ident s.ident :: declaredTypeNames r
  | .enumItem e :: r => TypeName.from_ident e.ident :: declaredTypeNames r
  | .foreignMod _ :: r => declaredTypeNames r
  | .implItem _ :: r => declaredTypeNames r
  | .modItem _ _ _ _ :: r => declaredTypeNames r
  | .otherItem _ :: r => declaredTypeNames r

/-- The items appended to `all_items` by the loop: an `ExternType` binding
assertion per struct (tagged by its classification) and per enum (always
`Trivial`), and every passed-through item (module or other), in order. -/
def pass2AllItems (bv : ByValueChecker) : List Item → List Item
  | [] => []
  | .structItem s :: r =>
    externTypeImpl (TypeName.from_ident s.ident).to_ident
        (TypeName.from_ident s.ident).to_cpp_name
        (if bv.is_pod (TypeName.from_ident s.ident) then "Trivial" else "Opaque") ::
      pass2AllItems bv r
  | .enumItem e :: r =>
    externTypeImpl (TypeName.from_ident e.ident).to_ident
        (TypeName.from_ident e.ident).to_cpp_name "Trivial" :: pass2AllItems bv r
  | .foreignMod _ :: r => pass2AllItems bv r
  | .implItem _ :: r => pass2AllItems bv r
  | .modItem a p n c :: r => .modItem a p n c :: pass2AllItems bv r
  | .otherItem t :: r => .otherItem t :: pass2AllItems bv r

/-- The items appended to the bridge items by the loop: one `UniquePtr`
placeholder per struct and per enum, in order. -/
def pass2BridgeItems : List Item → List Item
  | [] => []
  | .structItem s :: r =>
    uniquePtrStub (TypeName.from_ident s.ident).to_ident :: pass2BridgeItems r
  | .enumItem e :: r =>
    uniquePtrStub (TypeName.from_ident e.ident).to_ident :: pass2BridgeItems r
  | .foreignMod _ :: r => pass2BridgeItems r
  | .implItem _ :: r => pass2BridgeItems r
  | .modItem _ _ _ _ :: r => pass2BridgeItems r
  | .otherItem _ :: r => pass2BridgeItems r

/-- The pending extern-"C" items appended by the loop: one verbatim type
alias per struct and per enum, in order. -/
def pass2Aliases : List Item → List ForeignItem
  | [] => []
  | .structItem s :: r =>
    .verbatimAlias (TypeName.from_ident s.ident).to_ident :: pass2Aliases r
  | .enumItem e :: r =>
    .verbatimAlias (TypeName.from_ident e.ident).to_ident :: pass2Aliases r
  | .foreignMod _ :: r => pass2Aliases r
  | .implItem _ :: r => pass2Aliases r
  | .modItem _ _ _ _ :: r => pass2Aliases r
  | .otherItem _ :: r => pass2Aliases r

/-- The items appended to the reclassified module's body by the loop:
every struct (fields erased when opaque), every enum unchanged, and the
factory impls produced from each impl block's `new` methods, in order. -/
def pass2BindgenItems (bv : ByValueChecker) : List Item → List Item
  | [] => []
  | .structItem s :: r =>
    .structItem (if bv.is_pod (TypeName.from_ident s.ident) then s
                 else { s with fields := Fields.unit }) :: pass2BindgenItems bv r
  | .enumItem e :: r => .enumItem e :: pass2BindgenItems bv r
  | .foreignMod _ :: r => pass2BindgenItems bv r
  | .implItem i :: r =>
    (match type_to_typename i.self_ty with
     | some ty => implItemsOf ty i i.items
     | none => []) ++ pass2BindgenItems bv r
  | .modItem _ _ _ _ :: r => pass2BindgenItems bv r
  | .otherItem _ :: r => pass2BindgenItems bv r

/-- The Extra-Work queue contributed by the loop, threading the
discovered-types ledger (which grows at each struct/enum) through the
constructor-elision and demangling decisions of later foreign blocks. -/
def pass2Needs (bv : ByValueChecker) : List TypeName → List Item → List AdditionalNeed
  | _, [] => []
  | tf, .foreignMod fm :: r => pass2FnNeeds bv tf fm.items ++ pass2Needs bv tf r
  | tf, .structItem s :: r => pass2Needs bv (tf ++ [TypeName.from_ident s.ident]) r
  | tf, .enumItem e :: r => pass2Needs bv (tf ++ [TypeName.from_ident e.ident]) r
  | tf, .implItem i :: r =>
    (match type_to_typename i.self_ty with
     | some ty => implNeedsOf ty i.items
     | none => []) ++ pass2Needs bv tf r
  | tf, .modItem _ _ _ _ :: r => pass2Needs bv tf r
  | tf, .otherItem _ :: r => pass2Needs bv tf r

/-- Append rewritten declarations to the chosen extern-"C" block, when one
has been chosen. -/
def externAppend (o : Option ItemForeignMod) (l : List ForeignItem) :
    Option ItemForeignMod :=
  match o with
  | some fm => some { fm with items := fm.items ++ l }
  | none => none

/-- The evolution of the chosen extern-"C" block across the loop: the
first foreign block's emptied shell is adopted, and every foreign block's
surviving rewritten functions are appended to the chosen block. -/
def pass2Extern (bv : ByValueChecker) (renames : List (String × String)) :
    Option ItemForeignMod → List TypeName → List Item → Option ItemForeignMod
  | ecm, _, [] => ecm
  | ecm, tf, .foreignMod fm :: r =>
    let ecm1 := if ecm.isNone then some { fm with items := [] } else ecm
    pass2Extern bv renames (externAppend ecm1 (pass2FnItems bv renames tf fm.items)) tf r
  | ecm, tf, .structItem s :: r =>
    pass2Extern bv renames ecm (tf ++ [TypeName.from_ident s.ident]) r
  | ecm, tf, .enumItem e :: r =>
    pass2Extern bv renames ecm (tf ++ [TypeName.from_ident e.ident]) r
  | ecm, tf, .implItem _ :: r => pass2Extern bv renames ecm tf r
  | ecm, tf, .modItem _ _ _ _ :: r => pass2Extern bv renames ecm tf r
  | ecm, tf, .otherItem _ :: r => pass2Extern bv renames ecm tf r

theorem convert_item_list_spec (bv : ByValueChecker) (renames : List (String × String)) :
    ∀ (items : List Item) (st st' : ConvState),
      convert_item_list bv renames st items = .ok st' →
      st'.bindgenMod = st.bindgenMod ∧
      st'.all_items = st.all_items ++ pass2AllItems bv items ∧
      st'.bridge_items = st.bridge_items ++ pass2BridgeItems items ∧
      st'.extern_c_mod = pass2Extern bv renames st.extern_c_mod st.types_found items ∧
      st'.extern_c_mod_items = st.extern_c_mod_items ++ pass2Aliases items ∧
      st'.additional_cpp_needs =
        st.additional_cpp_needs ++ pass2Needs bv st.types_found items ∧
      st'.types_found = st.types_found ++ declaredTypeNames items ∧
      st'.bindgen_items = st.bindgen_items ++ pass2BindgenItems bv items
  | [], st, st', h => by
    have hst : st = st' := by simpa [convert_item_list] using h
    subst hst
    simp [pass2AllItems, pass2BridgeItems, pass2Extern, pass2Aliases, pass2Needs,
      declaredTypeNames, pass2BindgenItems]
  | .structItem s :: r, st, st', h => by
    rw [convert_item_list, convert_item_struct_eq] at h
    obtain ⟨h1, h2, h3, h4, h5, h6, h7, h8⟩ := convert_item_list_spec bv renames r _ st' h
    refine ⟨?_, ?_, ?_, ?_, ?_, ?_, ?_, ?_⟩
    · simpa using h1
    · simp [h2, pass2AllItems, List.append_assoc]
    · simp [h3, pass2BridgeItems, List.append_assoc]
    · simp only [h4, pass2Extern]
    · simp [h5, pass2Aliases, List.append_assoc]
    · simp only [h6, pass2Needs]
    · simp [h7, declaredTypeNames, List.append_assoc]
    · simp [h8, pass2BindgenItems, List.append_assoc]
  | .enumItem e :: r, st, st', h => by
    rw [convert_item_list, convert_item_enum_eq] at h
    obtain ⟨h1, h2, h3, h4, h5, h6, h7, h8⟩ := convert_item_list_spec bv renames r _ st' h
    refine ⟨?_, ?_, ?_, ?_, ?_, ?_, ?_, ?_⟩
    · simpa using h1
    · simp [h2, pass2AllItems, List.append_assoc]
    · simp [h3, pass2BridgeItems, List.append_assoc]
    · simp only [h4, pass2Extern]
    · simp [h5, pass2Aliases, List.append_assoc]
    · simp only [h6, pass2Needs]
    · simp [h7, declaredTypeNames, List.append_assoc]
    · simp [h8, pass2BindgenItems, List.append_assoc]
  | .implItem i :: r, st, st', h => by
    cases hty : type_to_typename i.self_ty with
    | some ty =>
      rw [convert_item_list, convert_item_impl_eq bv renames st i ty hty] at h
      obtain ⟨h1, h2, h3, h4, h5, h6, h7, h8⟩ := convert_item_list_spec bv renames r _ st' h
      refine ⟨?_, ?_, ?_, ?_, ?_, ?_, ?_, ?_⟩
      · simpa using h1
      · simp [h2, pass2AllItems]
      · simp [h3, pass2BridgeItems]
      · simp only [h4, pass2Extern]
      · simp [h5, pass2Aliases]
      · simp [h6, pass2Needs, hty, List.append_assoc]
      · simp [h7, declaredTypeNames]
      · simp [h8, pass2BindgenItems, hty, List.append_assoc]
    | none =>
      rw [convert_item_list, convert_item_impl_none_eq bv renames st i hty] at h
      obtain ⟨h1, h2, h3, h4, h5, h6, h7, h8⟩ := convert_item_list_spec bv renames r _ st' h
      refine ⟨?_, ?_, ?_, ?_, ?_, ?_, ?_, ?_⟩
      · simpa using h1
      · simp [h2, pass2AllItems]
      · simp [h3, pass2BridgeItems]
      · simp only [h4, pass2Extern]
      · simp [h5, pass2Aliases]
      · simp [h6, pass2Needs, hty]
      · simp [h7, declaredTypeNames]
      · simp [h8, pass2BindgenItems, hty]
  | .modItem a p n c :: r, st, st', h => by
    rw [convert_item_list] at h
    have hstep : convert_item bv renames st (.modItem a p n c) =
        .ok { st with all_items := st.all_items ++ [.modItem a p n c] } := rfl
    rw [hstep] at h
    obtain ⟨h1, h2, h3, h4, h5, h6, h7, h8⟩ := convert_item_list_spec bv renames r _ st' h
    refine ⟨?_, ?_, ?_, ?_, ?_, ?_, ?_, ?_⟩
    · simpa using h1
    · simp [h2, pass2AllItems, List.append_assoc]
    · simp [h3, pass2BridgeItems]
    · simp only [h4, pass2Extern]
    · simp [h5, pass2Aliases]
    · simp [h6, pass2Needs]
    · simp [h7, declaredTypeNames]
    · simp [h8, pass2BindgenItems]
  | .otherItem t :: r, st, st', h => by
    rw [convert_item_list] at h
    have hstep : convert_item bv renames st (.otherItem t) =
        .ok { st with all_items := st.all_items ++ [.otherItem t] } := rfl
    rw [hstep] at h
    obtain ⟨h1, h2, h3, h4, h5, h6, h7, h8⟩ := convert_item_list_spec bv renames r _ st' h
    refine ⟨?_, ?_, ?_, ?_, ?_, ?_, ?_, ?_⟩
    · simpa using h1
    · simp [h2, pass2AllItems, List.append_assoc]
    · simp [h3, pass2BridgeItems]
    · simp only [h4, pass2Extern]
    · simp [h5, pass2Aliases]
    · simp [h6, pass2Needs]
    · simp [h7, declaredTypeNames]
    · simp [h8, pass2BindgenItems]
  | .foreignMod fm :: r, st, st', h => by
    rw [convert_item_list] at h
    cases hext : st.extern_c_mod with
    | none =>
      have hstep : convert_item bv renames st (.foreignMod fm) =
          convert_foreign_mod_items bv renames
            { st with extern_c_mod := some { fm with items := [] } } fm.items := by
        simp [convert_item, hext]
      rw [hstep] at h
      cases hres : convert_foreign_mod_items bv renames
          { st with extern_c_mod := some { fm with items := [] } } fm.items with
      | error e => rw [hres] at h; exact absurd h (by simp)
      | ok st2 =>
        rw [hres] at h
        have hchar := convert_foreign_mod_items_spec bv renames fm.items
          { st with extern_c_mod := some { fm with items := [] } } st2
          { fm with items := [] } rfl hres
        obtain ⟨h1, h2, h3, h4, h5, h6, h7, h8⟩ := convert_item_list_spec bv renames r _ st' h
        rw [hchar] at h1 h2 h3 h4 h5 h6 h7 h8
        refine ⟨?_, ?_, ?_, ?_, ?_, ?_, ?_, ?_⟩
        · simpa using h1
        · simp [h2, pass2AllItems]
        · simp [h3, pass2BridgeItems]
        · simp only [h4, pass2Extern, hext, externAppend, Option.isNone]
          rfl
        · simp [h5, pass2Aliases]
        · simp [h6, pass2Needs, List.append_assoc]
        · simp [h7, declaredTypeNames]
        · simp [h8, pass2BindgenItems]
    | some fm0 =>
      have hstep : convert_item bv renames st (.foreignMod fm) =
          convert_foreign_mod_items bv renames st fm.items := by
        simp [convert_item, hext]
      rw [hstep] at h
      cases hres : convert_foreign_mod_items bv renames st fm.items with
      | error e => rw [hres] at h; exact absurd h (by simp)
      | ok st2 =>
        rw [hres] at h
        have hchar := convert_foreign_mod_items_spec bv renames fm.items st st2 fm0 hext hres
        obtain ⟨h1, h2, h3, h4, h5, h6, h7, h8⟩ := convert_item_list_spec bv renames r _ st' h
        rw [hchar] at h1 h2 h3 h4 h5 h6 h7 h8
        refine ⟨?_, ?_, ?_, ?_, ?_, ?_, ?_, ?_⟩
        · simpa using h1
        · simp [h2, pass2AllItems]
        · simp [h3, pass2BridgeItems]
        · simp only [h4, pass2Extern, hext, externAppend, Option.isNone]
          rfl
        · simp [h5, pass2Aliases]
        · simp [h6, pass2Needs, List.append_assoc]
        · simp [h7, declaredTypeNames]
        · simp [h8, pass2BindgenItems]

/-! ## Item accounting -/

/-- Is the item a struct declaration? -/
def isStructI : Item → Bool
  | .structItem _ => true
  | _ => false

/-- Is the item an enum declaration? -/
def isEnumI : Item → Bool
  | .enumItem _ => true
  | _ => false

/-- Is the item an impl block? -/
def isImplI : Item → Bool
  | .implItem _ => true
  | _ => false

/-- Is the item a foreign-linkage block? -/
def isForeignModI : Item → Bool
  | .foreignMod _ => true
  | _ => false

/-- Items the dispatch loop passes through unchanged: nested modules and
the opaque "other" kind. -/
def passThrough : Item → Bool
  | .modItem _ _ _ _ => true
  | .otherItem _ => true
  | _ => false

/-- Is the Extra-Work item a factory-function-needed item? -/
def isMakeUniqueNeed : AdditionalNeed → Bool
  | .MakeUnique _ _ => true
  | _ => false

/-- The number of methods literally named `new` with a declared return type
in an impl block's item list (each becomes exactly one factory). -/
def newMethodCount : List ImplItem → Nat
  | [] => 0
  | .method m :: r =>
    (if m.sig.ident = "new" ∧ m.sig.output.isSome then 1 else 0) + newMethodCount r
  | _ :: r => newMethodCount r

/-- The number of factory methods an item list gives rise to: for each impl
block whose self type is a path, its rewritable `new` methods. -/
def factoryCount : List Item → Nat
  | [] => 0
  | .implItem i :: r =>
    (match type_to_typename i.self_ty with
     | some _ => newMethodCount i.items
     | none => 0) + factoryCount r
  | _ :: r => factoryCount r

/-- The number of foreign functions an item list keeps after constructor
elision, threading the discovered-types ledger. -/
def survivingFnCount : List TypeName → List Item → Nat
  | _, [] => 0
  | tf, .foreignMod fm :: r =>
    fm.items.countP (fun fi =>
      match fi with
      | .fn _ sig => !isConstructorName tf sig.ident
      | _ => false) + survivingFnCount tf r
  | tf, .structItem s :: r => survivingFnCount (tf ++ [TypeName.from_ident s.ident]) r
  | tf, .enumItem e :: r => survivingFnCount (tf ++ [TypeName.from_ident e.ident]) r
  | tf, .implItem _ :: r => survivingFnCount tf r
  | tf, .modItem _ _ _ _ :: r => survivingFnCount tf r
  | tf, .otherItem _ :: r => survivingFnCount tf r

/-- Function-declaration count of an optional foreign block. -/
def fnCountOpt : Option ItemForeignMod → Nat
  | some fm => fm.items.countP isFnFI
  | none => 0

theorem implItemsOf_impl_count (ty : TypeName) (i : ItemImpl) :
    ∀ its : List ImplItem, (implItemsOf ty i its).countP isImplI = newMethodCount its
  | [] => rfl
  | .method m :: r => by
    by_cases hm : m.sig.ident = "new"
    · cases ho : m.sig.output with
      | none =>
        simp [implItemsOf, newMethodItems, newMethodCount, hm, ho,
          implItemsOf_impl_count ty i r]
      | some oldret =>
        simp [implItemsOf, newMethodItems, newMethodCount, hm, ho,
          implItemsOf_impl_count ty i r, isImplI, Nat.add_comm]
    · simp [implItemsOf, newMethodCount, hm, implItemsOf_impl_count ty i r]
  | .assocType n v :: r => by
    simp [implItemsOf, newMethodCount, implItemsOf_impl_count ty i r]
  | .otherImplItem t :: r => by
    simp [implItemsOf, newMethodCount, implItemsOf_impl_count ty i r]

theorem implItemsOf_all_impl (ty : TypeName) (i : ItemImpl) :
    ∀ its : List ImplItem, ∀ x ∈ implItemsOf ty i its, isImplI x = true
  | .method m :: r, x, hx => by
    rw [implItemsOf] at hx
    rcases List.mem_append.mp hx with hx | hx
    · by_cases hm : m.sig.ident = "new"
      · rw [if_pos hm] at hx
        cases ho : m.sig.output with
        | none => rw [newMethodItems, ho] at hx; exact absurd hx (List.not_mem_nil x)
        | some oldret =>
          rw [newMethodItems, ho] at hx
          have := List.mem_singleton.mp hx
          subst this
          rfl
      · rw [if_neg hm] at hx
        exact absurd hx (List.not_mem_nil x)
    · exact implItemsOf_all_impl ty i r x hx
  | .assocType n v :: r, x, hx =>
    implItemsOf_all_impl ty i r x (by simpa [implItemsOf] using hx)
  | .otherImplItem t :: r, x, hx =>
    implItemsOf_all_impl ty i r x (by simpa [implItemsOf] using hx)

theorem countP_zero_of_all {α : Type} (p : α → Bool) (l : List α)
    (h : ∀ x ∈ l, p x = false) : l.countP p = 0 := by
  induction l with
  | nil => rfl
  | cons a r ih =>
    rw [List.countP_cons]
    have ha := h a (List.mem_cons_self a r)
    simp [ha, ih (fun x hx => h x (List.mem_cons_of_mem a hx))]

theorem implItemsOf_struct_count (ty : TypeName) (i : ItemImpl) (its : List ImplItem) :
    (implItemsOf ty i its).countP isStructI = 0 := by
  refine countP_zero_of_all _ _ (fun x hx => ?_)
  have := implItemsOf_all_impl ty i its x hx
  cases x <;> simp_all [isImplI, isStructI]

theorem implItemsOf_enum_count (ty : TypeName) (i : ItemImpl) (its : List ImplItem) :
    (implItemsOf ty i its).countP isEnumI = 0 := by
  refine countP_zero_of_all _ _ (fun x hx => ?_)
  have := implItemsOf_all_impl ty i its x hx
  cases x <;> simp_all [isImplI, isEnumI]

theorem pass2Bindgen_struct_count (bv : ByValueChecker) :
    ∀ items : List Item,
      (pass2BindgenItems bv items).countP isStructI = items.countP isStructI
  | [] => rfl
  | .structItem s :: r => by
    by_cases hbp : bv.is_pod (TypeName.from_ident s.ident) <;>
      simp [pass2BindgenItems, List.countP_cons, isStructI, hbp,
        pass2Bindgen_struct_count bv r]
  | .enumItem e :: r => by
    simp [pass2BindgenItems, List.countP_cons, isStructI, isEnumI,
      pass2Bindgen_struct_count bv r]
  | .foreignMod fm :: r => by
    simp [pass2BindgenItems, List.countP_cons, isStructI, pass2Bindgen_struct_count bv r]
  | .implItem i :: r => by
    cases hty : type_to_typename i.self_ty with
    | some ty =>
      simp [pass2BindgenItems, List.countP_cons, List.countP_append, isStructI, hty,
        implItemsOf_struct_count, pass2Bindgen_struct_count bv r]
    | none =>
      simp [pass2BindgenItems, List.countP_cons, isStructI, hty,
        pass2Bindgen_struct_count bv r]
  | .modItem a p n c :: r => by
    simp [pass2BindgenItems, List.countP_cons, isStructI, pass2Bindgen_struct_count bv r]
  | .otherItem t :: r => by
    simp [pass2BindgenItems, List.countP_cons, isStructI, pass2Bindgen_struct_count bv r]

theorem pass2Bindgen_enum_count (bv : ByValueChecker) :
    ∀ items : List Item,
      (pass2BindgenItems bv items).countP isEnumI = items.countP isEnumI
  | [] => rfl
  | .structItem s :: r => by
    by_cases hbp : bv.is_pod (TypeName.from_ident s.ident) <;>
      simp [pass2BindgenItems, List.countP_cons, isEnumI, isStructI, hbp,
        pass2Bindgen_enum_count bv r]
  | .enumItem e :: r => by
    simp [pass2BindgenItems, List.countP_cons, isEnumI, pass2Bindgen_enum_count bv r]
  | .foreignMod fm :: r => by
    simp [pass2BindgenItems, List.countP_cons, isEnumI, pass2Bindgen_enum_count bv r]
  | .implItem i :: r => by
    cases hty : type_to_typename i.self_ty with
    | some ty =>
      simp [pass2BindgenItems, List.countP_cons, List.countP_append, isEnumI, hty,
        implItemsOf_enum_count, pass2Bindgen_enum_count bv r]
    | none =>
      simp [pass2BindgenItems, List.countP_cons, isEnumI, hty, pass2Bindgen_enum_count bv r]
  | .modItem a p n c :: r => by
    simp [pass2BindgenItems, List.countP_cons, isEnumI, pass2Bindgen_enum_count bv r]
  | .otherItem t :: r => by
    simp [pass2BindgenItems, List.countP_cons, isEnumI, pass2Bindgen_enum_count bv r]

theorem pass2Bindgen_impl_count (bv : ByValueChecker) :
    ∀ items : List Item,
      (pass2BindgenItems bv items).countP isImplI = factoryCount items
  | [] => rfl
  | .structItem s :: r => by
    by_cases hbp : bv.is_pod (TypeName.from_ident s.ident) <;>
      simp [pass2BindgenItems, factoryCount, List.countP_cons, isImplI, hbp,
        pass2Bindgen_impl_count bv r]
  | .enumItem e :: r => by
    simp [pass2BindgenItems, factoryCount, List.countP_cons, isImplI,
      pass2Bindgen_impl_count bv r]
  | .foreignMod fm :: r => by
    simp [pass2BindgenItems, factoryCount, pass2Bindgen_impl_count bv r]
  | .implItem i :: r => by
    cases hty : type_to_typename i.self_ty with
    | some ty =>
      simp [pass2BindgenItems, factoryCount, List.countP_append, hty,
        implItemsOf_impl_count, pass2Bindgen_impl_count bv r]
    | none =>
      simp [pass2BindgenItems, factoryCount, hty, pass2Bindgen_impl_count bv r]
  | .modItem a p n c :: r => by
    simp [pass2BindgenItems, factoryCount, List.countP_cons, isImplI,
      pass2Bindgen_impl_count bv r]
  | .otherItem t :: r => by
    simp [pass2BindgenItems, factoryCount, List.countP_cons, isImplI,
      pass2Bindgen_impl_count bv r]

theorem pass2All_filter_passThrough (bv : ByValueChecker) :
    ∀ items : List Item,
      (pass2AllItems bv items).filter passThrough = items.filter passThrough
  | [] => rfl
  | .structItem s :: r => by
    simp [pass2AllItems, externTypeImpl, List.filter, passThrough,
      pass2All_filter_passThrough bv r]
  | .enumItem e :: r => by
    simp [pass2AllItems, externTypeImpl, List.filter, passThrough,
      pass2All_filter_passThrough bv r]
  | .foreignMod fm :: r => by
    simp [pass2AllItems, List.filter, passThrough, pass2All_filter_passThrough bv r]
  | .implItem i :: r => by
    simp [pass2AllItems, List.filter, passThrough, pass2All_filter_passThrough bv r]
  | .modItem a p n c :: r => by
    simp [pass2AllItems, List.filter, passThrough, pass2All_filter_passThrough bv r]
  | .otherItem t :: r => by
    simp [pass2AllItems, List.filter, passThrough, pass2All_filter_passThrough bv r]

theorem pass2All_impl_count (bv : ByValueChecker) :
    ∀ items : List Item,
      (pass2AllItems bv items).countP isImplI =
        items.countP isStructI + items.countP isEnumI
  | [] => rfl
  | .structItem s :: r => by
    simp [pass2AllItems, externTypeImpl, List.countP_cons, isImplI, isStructI, isEnumI,
      pass2All_impl_count bv r]
    omega
  | .enumItem e :: r => by
    simp [pass2AllItems, externTypeImpl, List.countP_cons, isImplI, isStructI, isEnumI,
      pass2All_impl_count bv r]
    omega
  | .foreignMod fm :: r => by
    simp [pass2AllItems, List.countP_cons, isStructI, isEnumI, pass2All_impl_count bv r]
  | .implItem i :: r => by
    simp [pass2AllItems, List.countP_cons, isStructI, isEnumI, pass2All_impl_count bv r]
  | .modItem a p n c :: r => by
    simp [pass2AllItems, List.countP_cons, isImplI, isStructI, isEnumI,
      pass2All_impl_count bv r]
  | .otherItem t :: r => by
    simp [pass2AllItems, List.countP_cons, isImplI, isStructI, isEnumI,
      pass2All_impl_count bv r]

theorem pass2Bridge_impl_count :
    ∀ items : List Item,
      (pass2BridgeItems items).countP isImplI =
        items.countP isStructI + items.countP isEnumI
  | [] => rfl
  | .structItem s :: r => by
    simp [pass2BridgeItems, uniquePtrStub, List.countP_cons, isImplI, isStructI, isEnumI,
      pass2Bridge_impl_count r]
    omega
  | .enumItem e :: r => by
    simp [pass2BridgeItems, uniquePtrStub, List.countP_cons, isImplI, isStructI, isEnumI,
      pass2Bridge_impl_count r]
    omega
  | .foreignMod fm :: r => by
    simp [pass2BridgeItems, List.countP_cons, isStructI, isEnumI, pass2Bridge_impl_count r]
  | .implItem i :: r => by
    simp [pass2BridgeItems, List.countP_cons, isStructI, isEnumI, pass2Bridge_impl_count r]
  | .modItem a p n c :: r => by
    simp [pass2BridgeItems, List.countP_cons, isStructI, isEnumI, pass2Bridge_impl_count r]
  | .otherItem t :: r => by
    simp [pass2BridgeItems, List.countP_cons, isStructI, isEnumI, pass2Bridge_impl_count r]

theorem pass2Bridge_filter_foreignMod :
    ∀ items : List Item, (pass2BridgeItems items).filter isForeignModI = []
  | [] => rfl
  | .structItem s :: r => by
    simp [pass2BridgeItems, uniquePtrStub, List.filter, isForeignModI,
      pass2Bridge_filter_foreignMod r]
  | .enumItem e :: r => by
    simp [pass2BridgeItems, uniquePtrStub, List.filter, isForeignModI,
      pass2Bridge_filter_foreignMod r]
  | .foreignMod fm :: r => pass2Bridge_filter_foreignMod r
  | .implItem i :: r => pass2Bridge_filter_foreignMod r
  | .modItem a p n c :: r => pass2Bridge_filter_foreignMod r
  | .otherItem t :: r => pass2Bridge_filter_foreignMod r

theorem pass2FnNeeds_no_makeUnique (bv : ByValueChecker) (tf : List TypeName) :
    ∀ fis : List ForeignItem,
      (pass2FnNeeds bv tf fis).countP isMakeUniqueNeed = 0
  | [] => rfl
  | .fn attrs sig :: r => by
    by_cases hc : isConstructorName tf sig.ident
    · simp [pass2FnNeeds, hc, pass2FnNeeds_no_makeUnique bv tf r]
    · simp only [pass2FnNeeds, if_neg hc, List.countP_append,
        pass2FnNeeds_no_makeUnique bv tf r]
      simp [fnWrapperNeeds, isMakeUniqueNeed]
  | .includeMacro i :: r => pass2FnNeeds_no_makeUnique bv tf r
  | .verbatimAlias a :: r => pass2FnNeeds_no_makeUnique bv tf r
  | .unrecognized t :: r => pass2FnNeeds_no_makeUnique bv tf r

theorem implNeedsOf_makeUnique_count (ty : TypeName) :
    ∀ its : List ImplItem,
      (implNeedsOf ty its).countP isMakeUniqueNeed = newMethodCount its
  | [] => rfl
  | .method m :: r => by
    by_cases hm : m.sig.ident = "new"
    · cases ho : m.sig.output with
      | none =>
        simp [implNeedsOf, newMethodNeeds, newMethodCount, hm, ho,
          implNeedsOf_makeUnique_count ty r]
      | some oldret =>
        simp [implNeedsOf, newMethodNeeds, newMethodCount, hm, ho,
          implNeedsOf_makeUnique_count ty r, isMakeUniqueNeed, Nat.add_comm]
    · simp [implNeedsOf, newMethodCount, hm, implNeedsOf_makeUnique_count ty r]
  | .assocType n v :: r => by
    simp [implNeedsOf, newMethodCount, implNeedsOf_makeUnique_count ty r]
  | .otherImplItem t :: r => by
    simp [implNeedsOf, newMethodCount, implNeedsOf_makeUnique_count ty r]

theorem pass2Needs_makeUnique_count (bv : ByValueChecker) :
    ∀ (items : List Item) (tf : List TypeName),
      (pass2Needs bv tf items).countP isMakeUniqueNeed = factoryCount items
  | [], _ => rfl
  | .foreignMod fm :: r, tf => by
    simp [pass2Needs, factoryCount, List.countP_append,
      pass2FnNeeds_no_makeUnique bv tf fm.items, pass2Needs_makeUnique_count bv r tf]
  | .structItem s :: r, tf => by
    simp [pass2Needs, factoryCount, pass2Needs_makeUnique_count bv r]
  | .enumItem e :: r, tf => by
    simp [pass2Needs, factoryCount, pass2Needs_makeUnique_count bv r]
  | .implItem i :: r, tf => by
    cases hty : type_to_typename i.self_ty with
    | some ty =>
      simp [pass2Needs, factoryCount, hty, List.countP_append,
        implNeedsOf_makeUnique_count ty i.items, pass2Needs_makeUnique_count bv r tf]
    | none =>
      simp [pass2Needs, factoryCount, hty, pass2Needs_makeUnique_count bv r tf]
  | .modItem a p n c :: r, tf => by
    simp [pass2Needs, factoryCount, pass2Needs_makeUnique_count bv r tf]
  | .otherItem t :: r, tf => by
    simp [pass2Needs, factoryCount, pass2Needs_makeUnique_count bv r tf]

theorem pass2FnItems_fn_count (bv : ByValueChecker) (renames : List (String × String))
    (tf : List TypeName) :
    ∀ fis : List ForeignItem,
      (pass2FnItems bv renames tf fis).countP isFnFI =
        fis.countP (fun fi =>
          match fi with
          | .fn _ sig => !isConstructorName tf sig.ident
          | _ => false)
  | [] => rfl
  | .fn attrs sig :: r => by
    by_cases hc : isConstructorName tf sig.ident
    · simp [pass2FnItems, List.countP_cons, hc, pass2FnItems_fn_count bv renames tf r]
    · simp [pass2FnItems, List.countP_cons, hc, rewrittenFn, isFnFI,
        pass2FnItems_fn_count bv renames tf r, Nat.add_comm]
  | .includeMacro i :: r => by
    simp [pass2FnItems, List.countP_cons, pass2FnItems_fn_count bv renames tf r]
  | .verbatimAlias a :: r => by
    simp [pass2FnItems, List.countP_cons, pass2FnItems_fn_count bv renames tf r]
  | .unrecognized t :: r => by
    simp [pass2FnItems, List.countP_cons, pass2FnItems_fn_count bv renames tf r]

theorem pass2Extern_fn_count (bv : ByValueChecker) (renames : List (String × String)) :
    ∀ (items : List Item) (ecm : Option ItemForeignMod) (tf : List TypeName),
      fnCountOpt (pass2Extern bv renames ecm tf items) =
        fnCountOpt ecm + survivingFnCount tf items
  | [], ecm, tf => by simp [pass2Extern, survivingFnCount]
  | .foreignMod fm :: r, ecm, tf => by
    rw [pass2Extern, survivingFnCount]
    cases ecm with
    | none =>
      simp only [Option.isNone, if_pos rfl]
      rw [pass2Extern_fn_count bv renames r _ tf]
      simp [externAppend, fnCountOpt, List.countP_append,
        pass2FnItems_fn_count bv renames tf fm.items]
    | some fm0 =>
      simp only [Option.isNone, Bool.false_eq_true, if_false]
      rw [pass2Extern_fn_count bv renames r _ tf]
      simp [externAppend, fnCountOpt, List.countP_append,
        pass2FnItems_fn_count bv renames tf fm.items]
      omega
  | .structItem s :: r, ecm, tf => by
    rw [pass2Extern, survivingFnCount, pass2Extern_fn_count bv renames r ecm _]
  | .enumItem e :: r, ecm, tf => by
    rw [pass2Extern, survivingFnCount, pass2Extern_fn_count bv renames r ecm _]
  | .implItem i :: r, ecm, tf => by
    rw [pass2Extern, survivingFnCount, pass2Extern_fn_count bv renames r ecm tf]
  | .modItem a p n c :: r, ecm, tf => by
    rw [pass2Extern, survivingFnCount, pass2Extern_fn_count bv renames r ecm tf]
  | .otherItem t :: r, ecm, tf => by
    rw [pass2Extern, survivingFnCount, pass2Extern_fn_count bv renames r ecm tf]

theorem pass2Aliases_no_fn :
    ∀ items : List Item, (pass2Aliases items).countP isFnFI = 0
  | [] => rfl
  | .structItem s :: r => by
    simp [pass2Aliases, List.countP_cons, isFnFI, pass2Aliases_no_fn r]
  | .enumItem e :: r => by
    simp [pass2Aliases, List.countP_cons, isFnFI, pass2Aliases_no_fn r]
  | .foreignMod fm :: r => pass2Aliases_no_fn r
  | .implItem i :: r => pass2Aliases_no_fn r
  | .modItem a p n c :: r => pass2Aliases_no_fn r
  | .otherItem t :: r => pass2Aliases_no_fn r

theorem build_includes_no_fn (include_list : List String) (extra : Option String) :
    (build_include_foreign_items include_list extra).countP isFnFI = 0 := by
  refine countP_zero_of_all _ _ (fun x hx => ?_)
  rw [build_include_foreign_items] at hx
  obtain ⟨inc, _, rfl⟩ := List.mem_map.mp hx
  rfl

/-! ## Claim theorems -/

/-- Claim C2: if any caller-requested must-be-trivial type cannot be shown
trivial by the classifier, `convert` returns the unsafe-trivial-request
error carrying the (first) offending type's name.  The theorem holds for
arbitrary item lists — including ones whose rewriting would itself fail or
panic — which is exactly the claim's eagerness: the check fires during
pass 1, before the per-item loop, and the `Except` result carries no output
modules and no Extra-Work items. -/
theorem c2_unsafe_pod_request_aborts (cv : BridgeConverter) (bindings : ItemMod)
    (extra : Option String) (renames : List (String × String)) (items : List Item)
    (name : String)
    (hcontent : bindings.content = some items)
    (hfail : (pass1Checker items).satisfy_requests cv.pod_requests = .error name) :
    convert cv bindings extra renames = .error (.err (.UnsafePODType name)) := by
  simp only [convert, hcontent]
  simp only [convert_items, find_nested_pod_types, hfail]

def c2Items : List Item :=
  [Item.structItem ⟨"N", .named [("h", .path [.mk "Handle" .noArgs])]⟩]

def c2Bindings : ItemMod := ⟨[], true, "bindgen_mod", some c2Items⟩

theorem c2_unsafe_pod_request_aborts_witness :
    (pass1Checker c2Items).satisfy_requests [⟨"N"⟩] = .error "N" ∧
    convert ⟨[], [⟨"N"⟩]⟩ c2Bindings none [] = .error (.err (.UnsafePODType "N")) :=
  ⟨rfl, c2_unsafe_pod_request_aborts ⟨[], [⟨"N"⟩]⟩ c2Bindings none [] c2Items "N" rfl rfl⟩

/-- Claim C5: a foreign-declared function named `{Type}_{Type}` for a
previously discovered type is skipped entirely — `convert_foreign_fn`
returns the state unchanged, so the declaration is not pushed into the
rewritten foreign-linkage block and no Extra-Work item is emitted. -/
theorem c5_constructor_elision (bv : ByValueChecker) (renames : List (String × String))
    (st : ConvState) (attrs : List Attr) (sig : Signature) (ty : TypeName)
    (hmem : ty ∈ st.types_found)
    (hname : sig.ident = ty.name ++ "_" ++ ty.name) :
    convert_foreign_fn bv renames st attrs sig = .ok st := by
  apply convert_foreign_fn_skip
  simp only [isConstructorName, List.any_eq_true]
  exact ⟨ty, hmem, by simp [hname]⟩

def ledgerState : ConvState :=
  { initConvState ⟨[], true, "b", some []⟩ [] none with
    types_found := [⟨"Widget"⟩], extern_c_mod := some get_blank_extern_c_mod }

theorem c5_constructor_elision_witness :
    convert_foreign_fn ByValueChecker.new [] ledgerState [] ⟨"Widget_Widget", [], none⟩ =
      .ok ledgerState :=
  c5_constructor_elision ByValueChecker.new [] ledgerState [] ⟨"Widget_Widget", [], none⟩
    ⟨"Widget"⟩ (by simp [ledgerState]) (by decide)

/-- Claim C10: a literal Rust receiver argument makes the conversion panic
(`convert_fn_arg` returns the modelled panic, never one of the three
`ConvertError` kinds); `convert_fn_arg` is total exactly over typed
parameters; and a foreign function that is actually converted (not elided
as a constructor) panics whenever its argument list contains a receiver. -/
theorem c10_receiver_argument_panics :
    (∀ bv : ByValueChecker,
      convert_fn_arg bv .receiver = .error (.panicked receiverPanicMsg)) ∧
    (∀ (bv : ByValueChecker) (a : FnArg), fnArgIsTyped a = true →
      convert_fn_arg bv a = .ok (convArgOk bv a)) ∧
    (∀ (bv : ByValueChecker) (renames : List (String × String)) (st : ConvState)
        (attrs : List Attr) (sig : Signature),
      isConstructorName st.types_found sig.ident = false →
      FnArg.receiver ∈ sig.inputs →
      convert_foreign_fn bv renames st attrs sig = .error (.panicked receiverPanicMsg)) :=
  ⟨fun _ => rfl, convert_fn_arg_typed, convert_foreign_fn_receiver⟩

theorem c10_receiver_argument_panics_witness :
    convert_fn_arg ByValueChecker.new (.typed (.identPat "x") .otherTy) =
      .ok (convArgOk ByValueChecker.new (.typed (.identPat "x") .otherTy)) ∧
    convert_foreign_fn ByValueChecker.new [] ledgerState [] ⟨"f", [FnArg.receiver], none⟩ =
      .error (.panicked receiverPanicMsg) :=
  ⟨c10_receiver_argument_panics.2.1 ByValueChecker.new _ rfl,
   c10_receiver_argument_panics.2.2 ByValueChecker.new [] ledgerState []
     ⟨"f", [FnArg.receiver], none⟩ rfl (by simp)⟩

/-- Claim C9: a foreign-linkage block containing any item other than a
function declaration makes the conversion fail with
`UnknownForeignItem`, both at the block-rewrite level and for the whole
`convert` call; the `Except`-shaped result means no modules and no
Extra-Work queue are produced. -/
theorem c9_unknown_foreign_item :
    (∀ (bv : ByValueChecker) (renames : List (String × String)) (st : ConvState)
        (fm : ItemForeignMod) (fis : List ForeignItem),
      st.extern_c_mod = some fm →
      (∀ attrs sig, ForeignItem.fn attrs sig ∈ fis →
        ∀ a ∈ sig.inputs, fnArgIsTyped a = true) →
      (∃ fi ∈ fis, isFnFI fi = false) →
      convert_foreign_mod_items bv renames st fis = .error (.err .UnknownForeignItem)) ∧
    (∀ (cv : BridgeConverter) (bindings : ItemMod) (extra : Option String)
        (renames : List (String × String)) (fm0 : ItemForeignMod) (rest : List Item)
        (bv : ByValueChecker),
      bindings.content = some (Item.foreignMod fm0 :: rest) →
      find_nested_pod_types (Item.foreignMod fm0 :: rest) cv.pod_requests = .ok bv →
      (∀ attrs sig, ForeignItem.fn attrs sig ∈ fm0.items →
        ∀ a ∈ sig.inputs, fnArgIsTyped a = true) →
      (∃ fi ∈ fm0.items, isFnFI fi = false) →
      convert cv bindings extra renames = .error (.err .UnknownForeignItem)) := by
  constructor
  · intro bv renames st fm fis hfm htyped hbad
    exact convert_foreign_mod_items_unknown bv renames fis st fm hfm htyped hbad
  · intro cv bindings extra renames fm0 rest bv hcontent hfind htyped hbad
    simp only [convert, hcontent]
    simp only [convert_items, hfind]
    have hstep : convert_item bv renames
        (initConvState { bindings with content := some [] } cv.include_list extra)
        (.foreignMod fm0) = .error (.err .UnknownForeignItem) := by
      have h0 := convert_foreign_mod_items_unknown bv renames fm0.items
        { initConvState { bindings with content := some [] } cv.include_list extra with
          extern_c_mod := some { fm0 with items := [] } }
        { fm0 with items := [] } rfl htyped hbad
      simpa [convert_item, initConvState] using h0
    rw [convert_item_list, hstep]

def c9Fm : ItemForeignMod := ⟨"C", [], [ForeignItem.unrecognized 0]⟩

theorem c9_unknown_foreign_item_witness :
    convert ⟨[], []⟩ ⟨[], true, "b", some [Item.foreignMod c9Fm]⟩ none [] =
      .error (.err .UnknownForeignItem) :=
  c9_unknown_foreign_item.2 ⟨[], []⟩ ⟨[], true, "b", some [Item.foreignMod c9Fm]⟩ none []
    c9Fm [] (pass1Checker [Item.foreignMod c9Fm]) rfl rfl
    (by intro attrs sig hm; simp [c9Fm] at hm)
    ⟨.unrecognized 0, by simp [c9Fm], rfl⟩

theorem fnIsMethod_of_this (bv : ByValueChecker) (sig : Signature) (ty0 : Ty)
    (h : FnArg.typed (.identPat "this") ty0 ∈ sig.inputs) :
    fnIsMethod bv sig = true := by
  simp only [fnIsMethod, paramAnalyses, List.any_eq_true]
  refine ⟨(convArgOk bv (.typed (.identPat "this") ty0)).2, ?_, ?_⟩
  · exact List.mem_map_of_mem _ (List.mem_map_of_mem _ h)
  · simp [convArgOk]

theorem fnIsMethod_of_no_this (bv : ByValueChecker) (sig : Signature)
    (hn : ∀ ty0 : Ty, FnArg.typed (.identPat "this") ty0 ∉ sig.inputs) :
    fnIsMethod bv sig = false := by
  simp only [fnIsMethod, paramAnalyses]
  rw [List.any_eq_false]
  intro x hx
  obtain ⟨y, hy, rfl⟩ := List.mem_map.mp hx
  obtain ⟨a, ha, rfl⟩ := List.mem_map.mp hy
  cases a with
  | receiver => simp [convArgOk]
  | typed pat ty =>
    cases pat with
    | otherPat => simp [convArgOk]
    | identPat n =>
      by_cases hnn : n = "this"
      · subst hnn; exact absurd ha (hn ty)
      · simp [convArgOk, hnn]

/-- Claim C4: for a converted foreign function in which some parameter was
recognized as the conventional `this` receiver, if the discovered-types
ledger holds a type whose `{name}_` spelling prefixes the declared name,
the pushed declaration's bridge-facing identifier becomes the suffix after
that prefix, the first match in discovery order winning
(`List.findSome?`); a function with no receiver parameter keeps its
declared name even when such a prefix exists. -/
theorem c4_method_demangling :
    (∀ (bv : ByValueChecker) (renames : List (String × String)) (st : ConvState)
        (attrs : List Attr) (sig : Signature) (fm : ItemForeignMod) (ty0 : Ty)
        (suffix : String),
      isConstructorName st.types_found sig.ident = false →
      (∀ a ∈ sig.inputs, fnArgIsTyped a = true) →
      st.extern_c_mod = some fm →
      FnArg.typed (Pat.identPat "this") ty0 ∈ sig.inputs →
      st.types_found.findSome? (fun cn => cn.prefixes sig.ident) = some suffix →
      ∃ st' attrs2 sig2,
        convert_foreign_fn bv renames st attrs sig = .ok st' ∧
        st'.extern_c_mod = some { fm with items := fm.items ++ [.fn attrs2 sig2] } ∧
        sig2.ident = suffix) ∧
    (∀ (bv : ByValueChecker) (renames : List (String × String)) (st : ConvState)
        (attrs : List Attr) (sig : Signature) (fm : ItemForeignMod),
      isConstructorName st.types_found sig.ident = false →
      (∀ a ∈ sig.inputs, fnArgIsTyped a = true) →
      st.extern_c_mod = some fm →
      (∀ ty0 : Ty, FnArg.typed (Pat.identPat "this") ty0 ∉ sig.inputs) →
      ∃ st' attrs2 sig2,
        convert_foreign_fn bv renames st attrs sig = .ok st' ∧
        st'.extern_c_mod = some { fm with items := fm.items ++ [.fn attrs2 sig2] } ∧
        sig2.ident = sig.ident) := by
  constructor
  · intro bv renames st attrs sig fm ty0 suffix hctor htyped hfm hthis hfound
    refine ⟨_, fnFinalAttrs renames attrs sig.ident,
      { ident := finalFnIdent bv st.types_found sig,
        inputs := (sig.inputs.map (convArgOk bv)).map (·.1),
        output := convert_return_type sig.output },
      convert_foreign_fn_spec bv renames st attrs sig fm hctor htyped hfm, rfl, ?_⟩
    simp [finalFnIdent, demangled_name, fnIsMethod_of_this bv sig ty0 hthis, hfound]
  · intro bv renames st attrs sig fm hctor htyped hfm hnothis
    refine ⟨_, fnFinalAttrs renames attrs sig.ident,
      { ident := finalFnIdent bv st.types_found sig,
        inputs := (sig.inputs.map (convArgOk bv)).map (·.1),
        output := convert_return_type sig.output },
      convert_foreign_fn_spec bv renames st attrs sig fm hctor htyped hfm, rfl, ?_⟩
    simp [finalFnIdent, demangled_name, fnIsMethod_of_no_this bv sig hnothis]

def c4Sig : Signature :=
  ⟨"Widget_resize", [.typed (.identPat "this") (.ptr true (.path [.mk "Widget" .noArgs]))],
    none⟩

def c4SigNoThis : Signature :=
  ⟨"Widget_resize", [.typed (.identPat "w") (.path [.mk "Widget" .noArgs])], none⟩

theorem c4_method_demangling_witness :
    (∃ st' attrs2 sig2,
      convert_foreign_fn ByValueChecker.new [] ledgerState [] c4Sig = .ok st' ∧
      st'.extern_c_mod = some
        { get_blank_extern_c_mod with
          items := get_blank_extern_c_mod.items ++ [.fn attrs2 sig2] } ∧
      sig2.ident = "resize") ∧
    (∃ st' attrs2 sig2,
      convert_foreign_fn ByValueChecker.new [] ledgerState [] c4SigNoThis = .ok st' ∧
      st'.extern_c_mod = some
        { get_blank_extern_c_mod with
          items := get_blank_extern_c_mod.items ++ [.fn attrs2 sig2] } ∧
      sig2.ident = "Widget_resize") :=
  ⟨c4_method_demangling.1 ByValueChecker.new [] ledgerState [] c4Sig get_blank_extern_c_mod
      (.ptr true (.path [.mk "Widget" .noArgs])) "resize"
      (by decide) (by intro a ha; simp [c4Sig] at ha; subst ha; rfl) rfl
      (by simp [c4Sig]) (by rfl),
   c4_method_demangling.2 ByValueChecker.new [] ledgerState [] c4SigNoThis
      get_blank_extern_c_mod
      (by decide) (by intro a ha; simp [c4SigNoThis] at ha; subst ha; rfl) rfl
      (by intro ty0; simp [c4SigNoThis])⟩

/-- Claim C7: for every rewritten (non-elided) foreign function, exactly one
by-value-wrapper-needed item is appended iff some parameter's conversion
descriptor or the post-rewrite return conversion requires work, and the
item carries the function's final bridge identifier, the return conversion,
and the parameter conversions in declaration order. -/
theorem c7_wrapper_need (bv : ByValueChecker) (renames : List (String × String))
    (st : ConvState) (attrs : List Attr) (sig : Signature) (fm : ItemForeignMod)
    (hctor : isConstructorName st.types_found sig.ident = false)
    (htyped : ∀ a ∈ sig.inputs, fnArgIsTyped a = true)
    (hfm : st.extern_c_mod = some fm) :
    ∃ st', convert_foreign_fn bv renames st attrs sig = .ok st' ∧
      st'.additional_cpp_needs = st.additional_cpp_needs ++
        (if fnWrapperNeeded bv sig then
          [AdditionalNeed.ByValueWrapper (finalFnIdent bv st.types_found sig)
            (fnRetConv bv sig) (fnParamConvs bv sig)]
         else []) ∧
      (fnWrapperNeeded bv sig = true ↔
        ((∃ c ∈ fnParamConvs bv sig, c.work_needed = true) ∨
         (∃ c, fnRetConv bv sig = some c ∧ c.work_needed = true))) := by
  refine ⟨_, convert_foreign_fn_spec bv renames st attrs sig fm hctor htyped hfm, rfl, ?_⟩
  cases hr : fnRetConv bv sig with
  | none =>
    simp [fnWrapperNeeded, fnParamConvs, hr, List.any_eq_true, List.mem_map]
  | some c =>
    simp [fnWrapperNeeded, fnParamConvs, hr, List.any_eq_true, List.mem_map]

def c7Sig : Signature := ⟨"give", [], some (.path [.mk "Widget" .noArgs])⟩

theorem c7_wrapper_need_witness :
    ∃ st', convert_foreign_fn ByValueChecker.new [] ledgerState [] c7Sig = .ok st' ∧
      st'.additional_cpp_needs = ledgerState.additional_cpp_needs ++
        (if fnWrapperNeeded ByValueChecker.new c7Sig then
          [AdditionalNeed.ByValueWrapper
            (finalFnIdent ByValueChecker.new ledgerState.types_found c7Sig)
            (fnRetConv ByValueChecker.new c7Sig) (fnParamConvs ByValueChecker.new c7Sig)]
         else []) ∧
      (fnWrapperNeeded ByValueChecker.new c7Sig = true ↔
        ((∃ c ∈ fnParamConvs ByValueChecker.new c7Sig, c.work_needed = true) ∨
         (∃ c, fnRetConv ByValueChecker.new c7Sig = some c ∧ c.work_needed = true))) :=
  c7_wrapper_need ByValueChecker.new [] ledgerState [] c7Sig get_blank_extern_c_mod
    (by decide) (by intro a ha; simp [c7Sig] at ha) rfl

/-- Claim C8: each method literally named `new` (with a declared return
type) in an impl block whose self type names a type is rewritten into a
static factory: renamed `make_unique`, returning `cxx::UniquePtr` of the
original return type, its body delegating to
`super::cxxbridge::{Type}_make_unique` with the same argument names in
order, its `unsafe` markings removed; and exactly one
factory-function-needed Extra-Work item per such method is recorded,
carrying the type and the constructor's argument types in order.  The
second conjunct shows the scan covers every `new` method of the block. -/
theorem c8_constructor_rewrite :
    (∀ (st : ConvState) (m : ImplItemMethod) (ty : TypeName) (i : ItemImpl)
        (oldret : Ty), m.sig.output = some oldret →
      convert_new_method st m ty i =
        { st with
          additional_cpp_needs := st.additional_cpp_needs ++
            [.MakeUnique ty ((constructor_args m.sig.inputs).map (·.1))],
          bindgen_items := st.bindgen_items ++
            [.implItem
              { i with
                attrs := [], isUnsafe := false,
                items := [.method
                  { m with
                    block := .cxxbridgeCall (ty.name ++ "_make_unique")
                      ((constructor_args m.sig.inputs).map (·.2)),
                    sig := { m.sig with
                             ident := "make_unique", isUnsafe := false,
                             output := some (make_unique_return oldret) } }] }] }) ∧
    (∀ (bv : ByValueChecker) (renames : List (String × String)) (st : ConvState)
        (i : ItemImpl) (ty : TypeName),
      type_to_typename i.self_ty = some ty →
      convert_item bv renames st (.implItem i) =
        .ok { st with
              additional_cpp_needs := st.additional_cpp_needs ++ implNeedsOf ty i.items,
              bindgen_items := st.bindgen_items ++ implItemsOf ty i i.items }) := by
  constructor
  · intro st m ty i oldret h
    simp [convert_new_method, h]
  · intro bv renames st i ty hty
    exact convert_item_impl_eq bv renames st i ty hty

def c8Method : ImplItemMethod :=
  ⟨⟨"new", [.typed (.identPat "a") (.path [.mk "u32" .noArgs])],
    some (.path [.mk "Widget" .noArgs]), true⟩, .otherBody 0⟩

def c8Impl : ItemImpl :=
  ⟨[], false, none, .path [.mk "Widget" .noArgs], [.method c8Method]⟩

theorem c8_constructor_rewrite_witness :
    convert_new_method ledgerState c8Method ⟨"Widget"⟩ c8Impl =
      { ledgerState with
        additional_cpp_needs := ledgerState.additional_cpp_needs ++
          [.MakeUnique ⟨"Widget"⟩ ((constructor_args c8Method.sig.inputs).map (·.1))],
        bindgen_items := ledgerState.bindgen_items ++
          [.implItem
            { c8Impl with
              attrs := [], isUnsafe := false,
              items := [.method
                { c8Method with
                  block := .cxxbridgeCall (TypeName.name ⟨"Widget"⟩ ++ "_make_unique")
                    ((constructor_args c8Method.sig.inputs).map (·.2)),
                  sig := { c8Method.sig with
                           ident := "make_unique", isUnsafe := false,
                           output := some (make_unique_return
                             (.path [.mk "Widget" .noArgs])) } }] }] } ∧
    convert_item ByValueChecker.new [] ledgerState (.implItem c8Impl) =
      .ok { ledgerState with
            additional_cpp_needs := ledgerState.additional_cpp_needs ++
              implNeedsOf ⟨"Widget"⟩ c8Impl.items,
            bindgen_items := ledgerState.bindgen_items ++
              implItemsOf ⟨"Widget"⟩ c8Impl c8Impl.items } :=
  ⟨c8_constructor_rewrite.1 ledgerState c8Method ⟨"Widget"⟩ c8Impl
      (.path [.mk "Widget" .noArgs]) rfl,
   c8_constructor_rewrite.2 ByValueChecker.new [] ledgerState c8Impl ⟨"Widget"⟩ rfl⟩

/-- Bridge items of a conversion-step result (empty on failure). -/
def bridgeItemsOf : Res ConvState → List Item
  | .ok st => st.bridge_items
  | .error _ => []

/-- `all_items` of a conversion-step result (empty on failure). -/
def allItemsOf : Res ConvState → List Item
  | .ok st => st.all_items
  | .error _ => []

def c3Struct : ItemStruct := ⟨"P", .named [("x", .path [.mk "u32" .noArgs])]⟩

def c3Checker : ByValueChecker := pass1Checker [Item.structItem c3Struct]

def c3St0 : ConvState := initConvState ⟨[], true, "b", some []⟩ [] none

/-- Claim C3, counterexample to "for opaque types, and only for opaque
types — a placeholder ownership-capability stub": the struct `P` (one `u32`
field) is classified trivial, yet processing it still pushes the
`impl UniquePtr<P> {}` placeholder into the bridge items — the stub is
emitted unconditionally by `generate_type_alias`.  (The `ExternType`
assertion correctly carries the `Trivial` tag.) -/
theorem c3_stub_for_trivial_type_counterexample :
    c3Checker.is_pod ⟨"P"⟩ = true ∧
    bridgeItemsOf (convert_item c3Checker [] c3St0 (.structItem c3Struct)) =
      [uniquePtrStub "P"] ∧
    allItemsOf (convert_item c3Checker [] c3St0 (.structItem c3Struct)) =
      [externTypeImpl "P" "P" "Trivial"] :=
  ⟨by decide, rfl, rfl⟩

/-- Claim C3, amended: for every struct and enum declaration the engine
emits (a) a verbatim type alias into the pending strict-bridge
foreign-linkage items, (b) an external-type-binding assertion carrying the
type's foreign spelling and its `Trivial`/`Opaque` classification tag
(enums are always tagged `Trivial`), and (c) a placeholder
unique-ownership stub — for every such type, trivial or opaque alike, not
only for opaque ones.  Stated as exact equations for the two dispatch
arms. -/
theorem c3_alias_binding_stub_emission :
    (∀ (bv : ByValueChecker) (renames : List (String × String)) (st : ConvState)
        (s : ItemStruct),
      convert_item bv renames st (.structItem s) =
        .ok { st with
              all_items := st.all_items ++
                [externTypeImpl (TypeName.from_ident s.ident).to_ident
                  (TypeName.from_ident s.ident).to_cpp_name
                  (if bv.is_pod (TypeName.from_ident s.ident) then "Trivial" else "Opaque")],
              bridge_items := st.bridge_items ++
                [uniquePtrStub (TypeName.from_ident s.ident).to_ident],
              extern_c_mod_items := st.extern_c_mod_items ++
                [.verbatimAlias (TypeName.from_ident s.ident).to_ident],
              types_found := st.types_found ++ [TypeName.from_ident s.ident],
              bindgen_items := st.bindgen_items ++
                [.structItem (if bv.is_pod (TypeName.from_ident s.ident) then s
                              else { s with fields := Fields.unit })] }) ∧
    (∀ (bv : ByValueChecker) (renames : List (String × String)) (st : ConvState)
        (e : ItemEnum),
      convert_item bv renames st (.enumItem e) =
        .ok { st with
              all_items := st.all_items ++
                [externTypeImpl (TypeName.from_ident e.ident).to_ident
                  (TypeName.from_ident e.ident).to_cpp_name "Trivial"],
              bridge_items := st.bridge_items ++
                [uniquePtrStub (TypeName.from_ident e.ident).to_ident],
              extern_c_mod_items := st.extern_c_mod_items ++
                [.verbatimAlias (TypeName.from_ident e.ident).to_ident],
              types_found := st.types_found ++ [TypeName.from_ident e.ident],
              bindgen_items := st.bindgen_items ++ [.enumItem e] }) :=
  ⟨convert_item_struct_eq, convert_item_enum_eq⟩

def c1Impl : ItemImpl :=
  ⟨[], false, none, .path [.mk "T" .noArgs],
    [.method ⟨⟨"foo", [], none, false⟩, .otherBody 0⟩]⟩

def c1Bindings : ItemMod := ⟨[], true, "bindgen_mod", some [Item.implItem c1Impl]⟩

/-- Claim C1, counterexample to "every top-level item of the input appears,
transformed, exactly once across the two output modules ... except
constructor methods and declared-constructor foreign functions": the input
consists of exactly one impl block whose only method is named `foo` (not a
constructor).  The conversion succeeds, and the full output is spelled out:
neither output module contains any trace of the impl block or its method,
and the Extra-Work queue is empty — the item is silently lost. -/
theorem c1_impl_block_lost_counterexample :
    ([Item.implItem c1Impl].countP isImplI = 1) ∧
    convert ⟨[], []⟩ c1Bindings none [] =
      .ok { items := [Item.modItem [] true "bindgen_mod" (some ([] : List Item)),
                      Item.modItem [cxxbridgeAttr] true "cxxbridge"
                        (some [Item.foreignMod ⟨"C", [], []⟩])],
            additional_cpp_needs := [] } :=
  ⟨rfl, rfl⟩

/-- Claim C1, amended: for every successful conversion, the two sibling
output modules account for the input as follows — every struct and enum
appears (transformed) exactly once in the reclassified module; every
passed-through item (nested module or unrecognized kind) appears exactly
once, unchanged and in order, among the top-level output items; the
reclassified module's impl items are exactly the factories produced from
the impl blocks' rewritable `new` methods (impl blocks themselves are
consumed, their other contents dropped); each struct/enum contributes
exactly one binding assertion at top level and one ownership stub in the
bridge module; the bridge module holds exactly one foreign-linkage block
whose function declarations are the input's foreign functions minus the
elided synthetic constructors; and the Extra-Work queue carries exactly one
factory item per rewritten constructor. -/
theorem c1_structural_coverage (cv : BridgeConverter) (bindings : ItemMod)
    (extra : Option String) (renames : List (String × String)) (items : List Item)
    (res : BridgeConversionResults)
    (hcontent : bindings.content = some items)
    (hok : convert cv bindings extra renames = .ok res) :
    ∃ A bg br,
      res.items = A ++
        [Item.modItem bindings.attrs bindings.isPub bindings.ident (some bg),
         Item.modItem [cxxbridgeAttr] true "cxxbridge" (some br)] ∧
      bg.countP isStructI = items.countP isStructI ∧
      bg.countP isEnumI = items.countP isEnumI ∧
      bg.countP isImplI = factoryCount items ∧
      A.filter passThrough = items.filter passThrough ∧
      A.countP isImplI = items.countP isStructI + items.countP isEnumI ∧
      br.countP isImplI = items.countP isStructI + items.countP isEnumI ∧
      (∃ ecm, br.filter isForeignModI = [Item.foreignMod ecm] ∧
        ecm.items.countP isFnFI = survivingFnCount [] items) ∧
      res.additional_cpp_needs.countP isMakeUniqueNeed = factoryCount items := by
  cases hfind : find_nested_pod_types items cv.pod_requests with
  | error e =>
    simp only [convert, hcontent, convert_items, hfind] at hok
    exact absurd hok (by simp)
  | ok bv =>
    cases hrun : convert_item_list bv renames
        (initConvState { bindings with content := some [] } cv.include_list extra) items with
    | error e =>
      simp only [convert, hcontent, convert_items, hfind, hrun] at hok
      exact absurd hok (by simp)
    | ok st1 =>
      simp only [convert, hcontent, convert_items, hfind, hrun] at hok
      obtain ⟨h1, h2, h3, h4, h5, h6, h7, h8⟩ :=
        convert_item_list_spec bv renames items _ st1 hrun
      have hcont1 : st1.bindgenMod.content = some ([] : List Item) := by rw [h1]; rfl
      simp only [assemble, hcont1, Except.ok.injEq] at hok
      subst hok
      simp only [initConvState, List.nil_append] at h2 h3 h4 h5 h6 h7 h8
      refine ⟨st1.all_items, st1.bindgen_items,
        st1.bridge_items ++
          [.foreignMod
            { st1.extern_c_mod.getD get_blank_extern_c_mod with
              items := (st1.extern_c_mod.getD get_blank_extern_c_mod).items ++
                st1.extern_c_mod_items }],
        ?_, ?_, ?_, ?_, ?_, ?_, ?_, ?_, ?_⟩
      · simp [Item.ofMod, h1, initConvState]
      · simp [h8, pass2Bindgen_struct_count bv items]
      · simp [h8, pass2Bindgen_enum_count bv items]
      · simp [h8, pass2Bindgen_impl_count bv items]
      · simp [h2, pass2All_filter_passThrough bv items]
      · simp [h2, pass2All_impl_count bv items]
      · simp [h3, List.countP_append, List.countP_cons, isImplI,
          pass2Bridge_impl_count items]
      · refine ⟨{ st1.extern_c_mod.getD get_blank_extern_c_mod with
            items := (st1.extern_c_mod.getD get_blank_extern_c_mod).items ++
              st1.extern_c_mod_items }, ?_, ?_⟩
        · simp [h3, List.filter_append, pass2Bridge_filter_foreignMod items,
            isForeignModI, List.filter]
        · have hfc := pass2Extern_fn_count bv renames items none []
          rw [← h4] at hfc
          cases hecm : st1.extern_c_mod with
          | some e0 =>
            rw [hecm] at hfc
            simp only [fnCountOpt, Nat.zero_add] at hfc
            simp [hecm, List.countP_append, h5, build_includes_no_fn,
              pass2Aliases_no_fn items, hfc]
          | none =>
            rw [hecm] at hfc
            simp only [fnCountOpt, Nat.zero_add] at hfc
            simp [hecm, get_blank_extern_c_mod, List.countP_append, h5,
              build_includes_no_fn, pass2Aliases_no_fn items, ← hfc]
      · simp [h6, pass2Needs_makeUnique_count bv items]

def c1ResW : BridgeConversionResults :=
  { items := [Item.modItem [] true "bindgen_mod" (some []),
              Item.modItem [cxxbridgeAttr] true "cxxbridge"
                (some [Item.foreignMod ⟨"C", [], []⟩])],
    additional_cpp_needs := [] }

theorem c1_structural_coverage_witness :
    ∃ A bg br,
      c1ResW.items = A ++
        [Item.modItem ([] : List Attr) true "bindgen_mod" (some bg),
         Item.modItem [cxxbridgeAttr] true "cxxbridge" (some br)] ∧
      bg.countP isStructI = ([] : List Item).countP isStructI ∧
      bg.countP isEnumI = ([] : List Item).countP isEnumI ∧
      bg.countP isImplI = factoryCount [] ∧
      A.filter passThrough = ([] : List Item).filter passThrough ∧
      A.countP isImplI =
        ([] : List Item).countP isStructI + ([] : List Item).countP isEnumI ∧
      br.countP isImplI =
        ([] : List Item).countP isStructI + ([] : List Item).countP isEnumI ∧
      (∃ ecm, br.filter isForeignModI = [Item.foreignMod ecm] ∧
        ecm.items.countP isFnFI = survivingFnCount [] []) ∧
      c1ResW.additional_cpp_needs.countP isMakeUniqueNeed = factoryCount [] :=
  c1_structural_coverage ⟨[], []⟩ ⟨[], true, "bindgen_mod", some []⟩ none [] [] c1ResW
    rfl rfl

end Autocxx
